import Mathlib

/-!
# Heimdall: state-sync event relay and checkpoint REST queries

A shallow embedding of

* `server/gRPC/state_sync.go` (`Event`, `parseEvents`, `StateSyncEvents`), and
* `checkpoint/rest/query.go` (the five checkpoint query handlers),

together with the properties of the relay cursor and of the handlers that
follow from the code.

Machine integers are natural numbers; `uint64` arithmetic is written with an
explicit `% 2 ^ 64`.  The collaborators the code calls but does not define
(`helper.FetchFromAPI`, the stream's `Send`, `json.Unmarshal`, `time.Parse`,
the store query, `strconv`) are parameters of the definitions.
-/

namespace gRPC

/-! ## Data model (`state_sync.go`, lines 15-23, and the `proto` messages) -/

/-- The JSON shape of one upstream record (`type Event struct`). -/
structure Event where
  Id : Nat
  Contract : String
  Data : String
  TxHash : String
  LogIndex : Nat
  BorChainId : String
  RecordTime : String
deriving DecidableEq, Repr

/-- The `timestamppb.Timestamp` message: seconds and nanoseconds since the epoch. -/
structure Timestamp where
  Seconds : Int
  Nanos : Int
deriving DecidableEq, Repr

/-- The `proto.EventRecord` message. -/
structure EventRecord where
  ID : Nat
  Contract : String
  Data : String
  TxHash : String
  LogIndex : Nat
  ChainID : String
  Time : Timestamp
deriving DecidableEq, Repr

/-- The `proto.StateSyncEventsRequest` message (three `uint64` fields). -/
structure StateSyncEventsRequest where
  FromID : Nat
  ToTime : Nat
  Limit : Nat
deriving DecidableEq, Repr

/-- The `proto.StateSyncEventsResponse` message; `Height` is the decimal text
produced by `fmt.Sprint(result.Height)`. -/
structure StateSyncEventsResponse where
  Height : String
  Result : List EventRecord
deriving DecidableEq, Repr

/-- The query parameters of one fetch: the numbers whose decimal text
(`fmt.Sprint`) is stored under `from-id`, `to-time` and `limit`. -/
structure Params where
  fromId : Nat
  toTime : Nat
  limit : Nat
deriving DecidableEq, Repr

/-- The value `helper.FetchFromAPI` returns on success: a height and the raw
JSON payload (of an abstract type `ρ`). -/
structure ResponseWithHeight (ρ : Type) where
  Height : Int
  Result : ρ
deriving DecidableEq, Repr

/-- The collaborators of `StateSyncEvents`, acting on a world state `σ`:
the fetcher, the stream transport, the JSON decoder for `[]Event` and the
RFC3339 parser (`time.Parse` followed by `timestamppb.New`). -/
structure Env (σ ε ρ : Type) where
  FetchFromAPI : σ → Params → Except ε (ResponseWithHeight ρ) × σ
  Send : σ → StateSyncEventsResponse → Option ε × σ
  Unmarshal : ρ → Option (List Event)
  ParseRFC3339 : String → Option Timestamp

/-! ## `parseEvents` (lines 62-92) -/

/-- The loop body of `parseEvents`: the record built from one event, or
`none` when its `record_time` does not parse. -/
def toEventRecord (parseTime : String → Option Timestamp) (event : Event) :
    Option EventRecord :=
  match parseTime event.RecordTime with
  | none => none
  | some eventTime =>
    some { ID := event.Id
           Contract := event.Contract
           Data := event.Data
           TxHash := event.TxHash
           LogIndex := event.LogIndex
           ChainID := event.BorChainId
           Time := eventTime }

/-- The `for i, event := range events` loop: all records, or `none` at the
first event whose time does not parse. -/
def convertEvents (parseTime : String → Option Timestamp) :
    List Event → Option (List EventRecord)
  | [] => some []
  | event :: rest =>
    match toEventRecord parseTime event with
    | none => none
    | some r =>
      match convertEvents parseTime rest with
      | none => none
      | some rs => some (r :: rs)

/-- The function `parseEvents`: a `nil` slice (here `[]`) when the payload does
not unmarshal or some time does not parse, else one record per event. -/
def parseEvents {ρ : Type} (unmarshal : ρ → Option (List Event))
    (parseTime : String → Option Timestamp) (result : ρ) : List EventRecord :=
  match unmarshal result with
  | none => []
  | some events =>
    match convertEvents parseTime events with
    | none => []
    | some eventRecords => eventRecords

/-! ## `StateSyncEvents` (lines 25-60) -/

/-- Addition of two `uint64` values: the sum modulo `2 ^ 64`. -/
def addUint64 (a b : Nat) : Nat := (a + b) % 2 ^ 64

/-- One observable step of the relay: a fetch with its parameters and answer,
or a send with its message and result (`none` is a `nil` error). -/
inductive Action (ε ρ : Type) where
  | fetch (p : Params) (r : Except ε (ResponseWithHeight ρ))
  | send (m : StateSyncEventsResponse) (r : Option ε)

/-- How far a run got: it returned (with an error or `nil`), or the loop is
still running after the iterations that were executed. -/
inductive Outcome (ε : Type) where
  | returned (err : Option ε)
  | running
deriving DecidableEq, Repr

/-- The log of a run and where it stands. -/
structure Run (ε ρ : Type) where
  trace : List (Action ε ρ)
  outcome : Outcome ε

/-- The `for` loop of `StateSyncEvents`, unrolled for at most `fuel`
iterations from the cursor `fromId` in world state `s`. -/
def relayLoop {σ ε ρ : Type} (env : Env σ ε ρ) (req : StateSyncEventsRequest) :
    Nat → σ → Nat → Run ε ρ
  | 0, _, _ => { trace := [], outcome := .running }
  | fuel + 1, s, fromId =>
    let params : Params := { fromId := fromId, toTime := req.ToTime, limit := req.Limit }
    match env.FetchFromAPI s params with
    | (.error err, _) =>
      { trace := [.fetch params (.error err)], outcome := .returned (some err) }
    | (.ok result, s1) =>
      let eventRecords := parseEvents env.Unmarshal env.ParseRFC3339 result.Result
      if eventRecords.length = 0 then
        { trace := [.fetch params (.ok result)], outcome := .returned none }
      else
        let msg : StateSyncEventsResponse :=
          { Height := toString result.Height, Result := eventRecords }
        match env.Send s1 msg with
        | (some err, _) =>
          { trace := [.fetch params (.ok result), .send msg (some err)]
            outcome := .returned (some err) }
        | (none, s2) =>
          let rest := relayLoop env req fuel s2 (addUint64 fromId req.Limit)
          { trace := .fetch params (.ok result) :: .send msg none :: rest.trace
            outcome := rest.outcome }

/-- The method `StateSyncEvents`: the loop started at `req.FromID`. -/
def StateSyncEvents {σ ε ρ : Type} (env : Env σ ε ρ) (req : StateSyncEventsRequest)
    (s : σ) (fuel : Nat) : Run ε ρ :=
  relayLoop env req fuel s req.FromID

/-! ## Reading a trace -/

/-- The parameters of the fetches of a trace, in order. -/
def fetchParams {ε ρ : Type} : List (Action ε ρ) → List Params
  | [] => []
  | .fetch p _ :: rest => p :: fetchParams rest
  | .send _ _ :: rest => fetchParams rest

/-- The answers of the successful fetches of a trace, in order. -/
def fetched {ε ρ : Type} : List (Action ε ρ) → List (ResponseWithHeight ρ)
  | [] => []
  | .fetch _ (.ok res) :: rest => res :: fetched rest
  | .fetch _ (.error _) :: rest => fetched rest
  | .send _ _ :: rest => fetched rest

/-- The messages the transport accepted, in order. -/
def sentPages {ε ρ : Type} : List (Action ε ρ) → List StateSyncEventsResponse
  | [] => []
  | .send m none :: rest => m :: sentPages rest
  | .send _ (some _) :: rest => sentPages rest
  | .fetch _ _ :: rest => sentPages rest

/-- The messages handed to the transport, accepted or not, in order. -/
def sendAttempts {ε ρ : Type} : List (Action ε ρ) → List StateSyncEventsResponse
  | [] => []
  | .send m _ :: rest => m :: sendAttempts rest
  | .fetch _ _ :: rest => sendAttempts rest

/-- The error of a failed action, if it failed. -/
def Action.error {ε ρ : Type} : Action ε ρ → Option ε
  | .fetch _ (.error e) => some e
  | .fetch _ (.ok _) => none
  | .send _ r => r

/-- The message `StateSyncEvents` builds from a fetched answer. -/
def pageOf {σ ε ρ : Type} (env : Env σ ε ρ) (res : ResponseWithHeight ρ) :
    StateSyncEventsResponse :=
  { Height := toString res.Height
    Result := parseEvents env.Unmarshal env.ParseRFC3339 res.Result }

/-! ## The upstream of the pagination contract -/

/-- Whether `recordTime ≤ toTime`, for `toTime` in seconds since the epoch. -/
def recordTimeLe (r : EventRecord) (toTime : Nat) : Bool :=
  decide (r.Time.Seconds < (toTime : Int)) ||
    (decide (r.Time.Seconds = (toTime : Int)) && decide (r.Time.Nanos ≤ 0))

/-- The records of a dataset with `id > cursor` and `recordTime ≤ toTime`. -/
def matching (data : List EventRecord) (cursor toTime : Nat) : List EventRecord :=
  data.filter (fun r => decide (cursor < r.ID) && recordTimeLe r toTime)

/-- The page a static upstream answers `(cursor, toTime, limit)` with: the
first `limit` matching records. -/
def upstreamPage (data : List EventRecord) (cursor toTime limit : Nat) :
    List EventRecord :=
  (matching data cursor toTime).take limit

/-- The hypothesis "the fetcher answers `(cursor, toTime, limit)` with the
first `limit` matching records": every fetch succeeds and its payload parses
to that page. -/
def AnswersFrom {σ ε ρ : Type} (env : Env σ ε ρ) (data : List EventRecord)
    (toTime limit : Nat) : Prop :=
  ∀ (s : σ) (cursor : Nat), ∃ res s1,
    env.FetchFromAPI s { fromId := cursor, toTime := toTime, limit := limit } = (.ok res, s1) ∧
    parseEvents env.Unmarshal env.ParseRFC3339 res.Result = upstreamPage data cursor toTime limit

/-- The hypothesis "no send fails". -/
def SendsSucceed {σ ε ρ : Type} (env : Env σ ε ρ) : Prop :=
  ∀ (s : σ) (m : StateSyncEventsResponse), (env.Send s m).1 = none

/-! ## Sample collaborators -/

/-- The payload `parseEvents` cannot decode: the JSON does not unmarshal, or
it does and some event carries a `record_time` that is not RFC3339. -/
def DecodeFails {σ ε ρ : Type} (env : Env σ ε ρ) (raw : ρ) : Prop :=
  env.Unmarshal raw = none ∨
    ∃ events, env.Unmarshal raw = some events ∧
      ∃ e ∈ events, env.ParseRFC3339 e.RecordTime = none

/-- The fields `parseEvents` copies from an event into its record. -/
def Copied (e : Event) (r : EventRecord) : Prop :=
  r.ID = e.Id ∧ r.Contract = e.Contract ∧ r.Data = e.Data ∧ r.TxHash = e.TxHash ∧
    r.LogIndex = e.LogIndex ∧ r.ChainID = e.BorChainId

/-- An RFC3339 parser restricted to three instants; every other text is rejected. -/
def sampleParseRFC3339 (s : String) : Option Timestamp :=
  if s = "1970-01-01T00:00:01Z" then some ⟨1, 0⟩
  else if s = "1970-01-01T00:00:02Z" then some ⟨2, 0⟩
  else if s = "1970-01-01T00:00:03Z" then some ⟨3, 0⟩
  else none

/-- The RFC3339 text of the three instants; any other instant is rendered as
text that is not a timestamp. -/
def sampleRenderTime (t : Timestamp) : String :=
  if t = ⟨1, 0⟩ then "1970-01-01T00:00:01Z"
  else if t = ⟨2, 0⟩ then "1970-01-01T00:00:02Z"
  else if t = ⟨3, 0⟩ then "1970-01-01T00:00:03Z"
  else "not-a-time"

/-- The JSON event an upstream serves for a stored record. -/
def sampleRender (r : EventRecord) : Event :=
  { Id := r.ID
    Contract := r.Contract
    Data := r.Data
    TxHash := r.TxHash
    LogIndex := r.LogIndex
    BorChainId := r.ChainID
    RecordTime := sampleRenderTime r.Time }

/-- The world of the sample collaborators: how many fetches and how many
accepted sends happened so far. -/
structure World where
  fetches : Nat
  sends : Nat
deriving DecidableEq, Repr

/-- A static upstream over `data` that answers with the first `limit`
matching records, whose fetch number `k` fails when `fetchFails k`, and whose
transport rejects every send once `cancelAfter` sends were accepted. -/
def sampleEnv (data : List EventRecord) (fetchFails : Nat → Bool)
    (cancelAfter : Option Nat) : Env World String (List Event) where
  FetchFromAPI := fun s p =>
    if fetchFails s.fetches then
      (.error "upstream unavailable", { s with fetches := s.fetches + 1 })
    else
      (.ok { Height := 7, Result := (upstreamPage data p.fromId p.toTime p.limit).map sampleRender },
        { s with fetches := s.fetches + 1 })
  Send := fun s _ =>
    match cancelAfter with
    | none => (none, { s with sends := s.sends + 1 })
    | some n =>
      if n ≤ s.sends then (some "context canceled", s)
      else (none, { s with sends := s.sends + 1 })
  Unmarshal := fun raw => some raw
  ParseRFC3339 := sampleParseRFC3339

/-- A static upstream over `data` that serves at least one record per
request: a request with `limit = 0` is answered like one with `limit = 1`.
Every send is accepted. -/
def lenientEnv (data : List EventRecord) : Env World String (List Event) where
  FetchFromAPI := fun s p =>
    (.ok { Height := 7
           Result := (upstreamPage data p.fromId p.toTime (max p.limit 1)).map sampleRender },
      { s with fetches := s.fetches + 1 })
  Send := fun s _ => (none, { s with sends := s.sends + 1 })
  Unmarshal := fun raw => some raw
  ParseRFC3339 := sampleParseRFC3339

/-- A record with the given id and time in seconds. -/
def sampleRecord (id : Nat) (seconds : Int) : EventRecord :=
  { ID := id, Contract := "0xc", Data := "0xd", TxHash := "0xh", LogIndex := id,
    ChainID := "137", Time := ⟨seconds, 0⟩ }

/-- Three records with the contiguous ids 1, 2, 3. -/
def sampleDense : List EventRecord :=
  [sampleRecord 1 1, sampleRecord 2 2, sampleRecord 3 3]

/-- Two records with the sparse ids 1 and 3. -/
def sampleSparse : List EventRecord :=
  [sampleRecord 1 1, sampleRecord 3 3]

/-- The records with ids `1..n`, all stamped with the first second. -/
def sampleBacklog (n : Nat) : List EventRecord :=
  (List.range' 1 n).map (fun i => sampleRecord i 1)

/-- One record with the largest `uint64` id. -/
def sampleHigh : List EventRecord :=
  [sampleRecord 18446744073709551615 1]

/-- Two records, the second with a time the sample upstream renders as text
that is not RFC3339. -/
def sampleCorrupt : List EventRecord :=
  [sampleRecord 1 1, sampleRecord 2 9]

end gRPC

namespace rest

/-! ## The checkpoint REST queries (`checkpoint/rest/query.go`) -/

/-- The store keys the handlers query: `common.BufferCheckpointKey`,
`common.ACKCountKey`, `common.CheckpointNoACKCacheKey` and
`common.GetHeaderKey(n)`. -/
inductive StoreKey where
  | BufferCheckpointKey
  | ACKCountKey
  | CheckpointNoACKCacheKey
  | HeaderKey (headerNumber : Nat)
deriving DecidableEq, Repr

/-- What an `http.ResponseWriter` has been told: the status set by the first
`WriteHeader` (`none` while unset), the `Content-Type` header and the body. -/
structure ResponseWriter where
  status : Option Nat
  contentType : Option String
  body : String
deriving DecidableEq, Repr

/-- A fresh response. -/
def ResponseWriter.fresh : ResponseWriter :=
  { status := none, contentType := none, body := "" }

/-- The call `w.WriteHeader(code)`: only the first call counts. -/
def ResponseWriter.WriteHeader (w : ResponseWriter) (code : Nat) : ResponseWriter :=
  match w.status with
  | some _ => w
  | none => { w with status := some code }

/-- The call `w.Write(b)`: an unset status becomes 200 and the bytes are
appended, unless the status allows no body (1xx, 204, 304). -/
def ResponseWriter.Write (w : ResponseWriter) (b : String) : ResponseWriter :=
  let w1 := w.WriteHeader 200
  match w1.status with
  | some code =>
    if code < 200 ∨ code = 204 ∨ code = 304 then w1 else { w1 with body := w1.body ++ b }
  | none => w1

/-- The call `w.Header().Set("Content-Type", v)`, effective before the status is written. -/
def ResponseWriter.SetContentType (w : ResponseWriter) (v : String) : ResponseWriter :=
  match w.status with
  | some _ => w
  | none => { w with contentType := some v }

/-- The helper `utils.WriteErrorResponse(w, status, msg)`: the status, then the message. -/
def WriteErrorResponse (w : ResponseWriter) (status : Nat) (msg : String) : ResponseWriter :=
  (w.WriteHeader status).Write msg

/-- The collaborators of the handlers; `χ` is `types.CheckpointBlockHeader`.
Errors are represented by their `Error()` text.  `UnmarshalBinary` yields the
value left in the target variable together with the error, and `ParseUint`
yields the number it returns together with the error, as the Go functions do. -/
structure Ctx (χ : Type) where
  QueryStore : StoreKey → Except String (List Nat)
  UnmarshalBinary : List Nat → χ × Option String
  MarshalCheckpoint : χ → Except String String
  ParseInt : List Nat → Except String Int
  MarshalResult : Int → Except String String
  ParseUint : String → Nat × Option String
  Atoi : String → Except String Int
  GetHeaders : Nat → Nat → Except String (List Nat)
  MarshalHeaderBlock : Nat → Nat → List Nat → Except String String

/-- What one request did: the response, the store queries and the
`checkpoint.GetHeaders` calls it issued, and whether the handler ended in a
runtime panic instead of returning. -/
structure Served where
  w : ResponseWriter
  queries : List StoreKey
  headerCalls : List (Nat × Nat)
  panicked : Bool
deriving DecidableEq, Repr

/-- The conversion `uint64(x)` of an `int`. -/
def toUint64 (x : Int) : Nat := (x % 2 ^ 64).toNat

/-- The handler of `/checkpoint/buffer` (lines 41-76). -/
def checkpointBufferHandlerFn {χ : Type} (c : Ctx χ) : Served :=
  let w := ResponseWriter.fresh
  match c.QueryStore .BufferCheckpointKey with
  | .error err =>
    { w := WriteErrorResponse w 500 err, queries := [.BufferCheckpointKey],
      headerCalls := [], panicked := false }
  | .ok res =>
    if res.length = 0 then
      { w := w.WriteHeader 204, queries := [.BufferCheckpointKey],
        headerCalls := [], panicked := false }
    else
      let _checkpoint := (c.UnmarshalBinary res).1
      match c.MarshalCheckpoint _checkpoint with
      | .error err =>
        { w := (w.WriteHeader 400).Write err, queries := [.BufferCheckpointKey],
          headerCalls := [], panicked := false }
      | .ok result =>
        { w := (w.SetContentType "application/json").Write result,
          queries := [.BufferCheckpointKey], headerCalls := [], panicked := false }

/-- The handler of `/checkpoint/count` (lines 78-113). -/
def checkpointCountHandlerFn {χ : Type} (c : Ctx χ) : Served :=
  let w := ResponseWriter.fresh
  match c.QueryStore .ACKCountKey with
  | .error err =>
    { w := WriteErrorResponse w 500 err, queries := [.ACKCountKey],
      headerCalls := [], panicked := false }
  | .ok res =>
    if res.length = 0 then
      { w := w.WriteHeader 204, queries := [.ACKCountKey],
        headerCalls := [], panicked := false }
    else
      match c.ParseInt res with
      | .error err =>
        { w := w.Write err, queries := [.ACKCountKey], headerCalls := [], panicked := false }
      | .ok ackCount =>
        match c.MarshalResult ackCount with
        | .error err =>
          { w := (w.WriteHeader 400).Write err, queries := [.ACKCountKey],
            headerCalls := [], panicked := false }
        | .ok result =>
          { w := (w.SetContentType "application/json").Write result,
            queries := [.ACKCountKey], headerCalls := [], panicked := false }

/-- The handler of `/checkpoint/headers/{headerBlockIndex}` (lines 115-152).
The error of `strconv.ParseUint` is assigned and then overwritten by the
store query of the next line; only the number is used. -/
def checkpointHeaderHandlerFn {χ : Type} (c : Ctx χ) (headerBlockIndex : String) : Served :=
  let w := ResponseWriter.fresh
  let headerNumber := (c.ParseUint headerBlockIndex).1
  match c.QueryStore (.HeaderKey headerNumber) with
  | .error err =>
    { w := WriteErrorResponse w 500 err, queries := [.HeaderKey headerNumber],
      headerCalls := [], panicked := false }
  | .ok res =>
    if res.length = 0 then
      { w := w.WriteHeader 404, queries := [.HeaderKey headerNumber],
        headerCalls := [], panicked := false }
    else
      match c.UnmarshalBinary res with
      | (_, some err) =>
        { w := WriteErrorResponse w 500 err, queries := [.HeaderKey headerNumber],
          headerCalls := [], panicked := false }
      | (_checkpoint, none) =>
        match c.MarshalCheckpoint _checkpoint with
        | .error err =>
          { w := (w.WriteHeader 400).Write err, queries := [.HeaderKey headerNumber],
            headerCalls := [], panicked := false }
        | .ok result =>
          { w := (w.SetContentType "application/json").Write result,
            queries := [.HeaderKey headerNumber], headerCalls := [], panicked := false }

/-- The handler of `/checkpoint/{start}/{end}` (lines 154-199).  The call
`helper.InitHeimdallConfig()` only loads the node configuration and leaves no
mark on the response; the header block that is marshalled has the zero
address as proposer, the two converted numbers and the hash of the root bytes. -/
def checkpointHandlerFn {χ : Type} (c : Ctx χ) (startVar endVar : String) : Served :=
  let w := ResponseWriter.fresh
  match c.Atoi startVar with
  | .error err =>
    { w := (w.WriteHeader 400).Write err, queries := [], headerCalls := [], panicked := false }
  | .ok start =>
    match c.Atoi endVar with
    | .error err =>
      { w := (w.WriteHeader 400).Write err, queries := [], headerCalls := [],
        panicked := false }
    | .ok end_ =>
      match c.GetHeaders (toUint64 start) (toUint64 end_) with
      | .error err =>
        { w := (w.WriteHeader 400).Write err, queries := [],
          headerCalls := [(toUint64 start, toUint64 end_)], panicked := false }
      | .ok roothash =>
        match c.MarshalHeaderBlock (toUint64 start) (toUint64 end_) roothash with
        | .error err =>
          { w := (w.WriteHeader 400).Write err, queries := [],
            headerCalls := [(toUint64 start, toUint64 end_)], panicked := false }
        | .ok result =>
          { w := (w.SetContentType "application/json").Write result, queries := [],
            headerCalls := [(toUint64 start, toUint64 end_)], panicked := false }

/-- The handler of `/checkpoint/last-no-ack` (lines 201-236).  In the empty
branch `err` is `nil` (the non-`nil` case returned above), so evaluating
`err.Error()` for the `Write` after `WriteHeader(204)` is a nil dereference. -/
def noackHandlerFn {χ : Type} (c : Ctx χ) : Served :=
  let w := ResponseWriter.fresh
  match c.QueryStore .CheckpointNoACKCacheKey with
  | .error err =>
    { w := (w.WriteHeader 400).Write err, queries := [.CheckpointNoACKCacheKey],
      headerCalls := [], panicked := false }
  | .ok res =>
    if res.length = 0 then
      { w := w.WriteHeader 204, queries := [.CheckpointNoACKCacheKey],
        headerCalls := [], panicked := true }
    else
      match c.ParseInt res with
      | .error err =>
        { w := w.Write err, queries := [.CheckpointNoACKCacheKey], headerCalls := [],
          panicked := false }
      | .ok lastAckTime =>
        match c.MarshalResult lastAckTime with
        | .error err =>
          { w := (w.WriteHeader 400).Write err, queries := [.CheckpointNoACKCacheKey],
            headerCalls := [], panicked := false }
        | .ok result =>
          { w := (w.SetContentType "application/json").Write result,
            queries := [.CheckpointNoACKCacheKey], headerCalls := [], panicked := false }

/-- The function `strconv.ParseUint(s, 10, 64)` as Go documents it: the empty
text and any text with a character that is not a decimal digit are syntax
errors with value 0; a number of 2^64 or more is a range error with the
largest `uint64` as value. -/
def decimalParseUint (s : String) : Nat × Option String :=
  if s.data = [] then (0, some "invalid syntax")
  else if s.data.all Char.isDigit then
    let n := s.data.foldl (fun acc ch => 10 * acc + (ch.toNat - 48)) 0
    if n < 2 ^ 64 then (n, none) else (2 ^ 64 - 1, some "value out of range")
  else (0, some "invalid syntax")

/-- The function `strconv.Atoi(s)` on a 64-bit platform: an optional sign
followed by decimal digits within the `int64` range. -/
def decimalAtoi (s : String) : Except String Int :=
  let digits : List Char → Option Nat := fun ds =>
    if ds = [] then none
    else if ds.all Char.isDigit then
      some (ds.foldl (fun acc ch => 10 * acc + (ch.toNat - 48)) 0)
    else none
  match s.data with
  | '-' :: ds =>
    match digits ds with
    | some n => if n ≤ 2 ^ 63 then .ok (-(n : Int)) else .error "value out of range"
    | none => .error "invalid syntax"
  | '+' :: ds =>
    match digits ds with
    | some n => if n < 2 ^ 63 then .ok (n : Int) else .error "value out of range"
    | none => .error "invalid syntax"
  | ds =>
    match digits ds with
    | some n => if n < 2 ^ 63 then .ok (n : Int) else .error "value out of range"
    | none => .error "invalid syntax"

/-- Sample collaborators over a given store: headers are plain numbers,
encoded as one byte. -/
def sampleCtx (store : StoreKey → Except String (List Nat)) : Ctx Nat where
  QueryStore := store
  UnmarshalBinary := fun bz => (bz.headD 0, none)
  MarshalCheckpoint := fun cp => .ok (toString cp)
  ParseInt := fun bz => .ok (bz.headD 0 : Nat)
  MarshalResult := fun n => .ok (toString n)
  ParseUint := decimalParseUint
  Atoi := decimalAtoi
  GetHeaders := fun _ _ => .ok [0]
  MarshalHeaderBlock := fun start end_ _ => .ok (toString start ++ "-" ++ toString end_)

/-- A store holding one header, under header number 0. -/
def sampleStore : StoreKey → Except String (List Nat)
  | .HeaderKey 0 => .ok [42]
  | _ => .ok []

end rest

namespace gRPC

/-! ## The four ways one iteration of the loop can go -/

theorem relayLoop_zero {σ ε ρ : Type} (env : Env σ ε ρ) (req : StateSyncEventsRequest)
    (s : σ) (c : Nat) :
    relayLoop env req 0 s c = { trace := [], outcome := .running } := rfl

theorem relayLoop_succ_cases {σ ε ρ : Type} (env : Env σ ε ρ) (req : StateSyncEventsRequest)
    (fuel : Nat) (s : σ) (c : Nat) :
    (∃ err s1, env.FetchFromAPI s ⟨c, req.ToTime, req.Limit⟩ = (.error err, s1) ∧
        relayLoop env req (fuel + 1) s c =
          { trace := [.fetch ⟨c, req.ToTime, req.Limit⟩ (.error err)]
            outcome := .returned (some err) }) ∨
    (∃ res s1, env.FetchFromAPI s ⟨c, req.ToTime, req.Limit⟩ = (.ok res, s1) ∧
        parseEvents env.Unmarshal env.ParseRFC3339 res.Result = [] ∧
        relayLoop env req (fuel + 1) s c =
          { trace := [.fetch ⟨c, req.ToTime, req.Limit⟩ (.ok res)]
            outcome := .returned none }) ∨
    (∃ res s1 err s2, env.FetchFromAPI s ⟨c, req.ToTime, req.Limit⟩ = (.ok res, s1) ∧
        parseEvents env.Unmarshal env.ParseRFC3339 res.Result ≠ [] ∧
        env.Send s1 (pageOf env res) = (some err, s2) ∧
        relayLoop env req (fuel + 1) s c =
          { trace := [.fetch ⟨c, req.ToTime, req.Limit⟩ (.ok res),
                      .send (pageOf env res) (some err)]
            outcome := .returned (some err) }) ∨
    (∃ res s1 s2, env.FetchFromAPI s ⟨c, req.ToTime, req.Limit⟩ = (.ok res, s1) ∧
        parseEvents env.Unmarshal env.ParseRFC3339 res.Result ≠ [] ∧
        env.Send s1 (pageOf env res) = (none, s2) ∧
        relayLoop env req (fuel + 1) s c =
          { trace := .fetch ⟨c, req.ToTime, req.Limit⟩ (.ok res) ::
                     .send (pageOf env res) none ::
                     (relayLoop env req fuel s2 (addUint64 c req.Limit)).trace
            outcome := (relayLoop env req fuel s2 (addUint64 c req.Limit)).outcome }) := by
  rcases hf : env.FetchFromAPI s ⟨c, req.ToTime, req.Limit⟩ with ⟨r, s1⟩
  cases r with
  | error err =>
    left
    exact ⟨err, s1, rfl, by simp [relayLoop, hf]⟩
  | ok res =>
    right
    by_cases hp : parseEvents env.Unmarshal env.ParseRFC3339 res.Result = []
    · left
      exact ⟨res, s1, rfl, hp, by simp [relayLoop, hf, hp]⟩
    · right
      rcases hs : env.Send s1 (pageOf env res) with ⟨r2, s2⟩
      have hs2 := hs
      simp only [pageOf] at hs2
      cases r2 with
      | some err =>
        left
        exact ⟨res, s1, err, s2, rfl, hp, hs, by simp [relayLoop, hf, hp, hs2, pageOf]⟩
      | none =>
        right
        exact ⟨res, s1, s2, rfl, hp, hs, by simp [relayLoop, hf, hp, hs2, pageOf]⟩

/-! ## Cursor arithmetic -/

theorem relayLoop_fetch_params {σ ε ρ : Type} (env : Env σ ε ρ) (req : StateSyncEventsRequest) :
    ∀ (fuel : Nat) (s : σ) (c : Nat), c < 2 ^ 64 → ∀ (k : Nat) (p : Params),
      (fetchParams (relayLoop env req fuel s c).trace)[k]? = some p →
      p = ⟨(c + k * req.Limit) % 2 ^ 64, req.ToTime, req.Limit⟩ := by
  intro fuel
  induction fuel with
  | zero =>
    intro s c _ k p h
    simp [relayLoop_zero, fetchParams] at h
  | succ fuel ih =>
    intro s c hc k p h
    rcases relayLoop_succ_cases env req fuel s c with
      ⟨err, s1, _, hr⟩ | ⟨res, s1, _, _, hr⟩ | ⟨res, s1, err, s2, _, _, _, hr⟩ |
      ⟨res, s1, s2, _, _, _, hr⟩
    · rw [hr] at h
      cases k with
      | zero =>
        simp [fetchParams] at h
        subst h
        simp
        omega
      | succ k => simp [fetchParams] at h
    · rw [hr] at h
      cases k with
      | zero =>
        simp [fetchParams] at h
        subst h
        simp
        omega
      | succ k => simp [fetchParams] at h
    · rw [hr] at h
      cases k with
      | zero =>
        simp [fetchParams] at h
        subst h
        simp
        omega
      | succ k => simp [fetchParams] at h
    · rw [hr] at h
      cases k with
      | zero =>
        simp [fetchParams] at h
        subst h
        simp
        omega
      | succ k =>
        simp only [fetchParams, List.getElem?_cons_succ] at h
        have h2 := ih s2 (addUint64 c req.Limit) (Nat.mod_lt _ (by norm_num)) k p h
        rw [h2]
        unfold addUint64
        have : (c + req.Limit) % 2 ^ 64 + k * req.Limit ≡ c + (k + 1) * req.Limit [MOD 2 ^ 64] := by
          have h3 : (c + req.Limit) % 2 ^ 64 ≡ c + req.Limit [MOD 2 ^ 64] := Nat.mod_modEq _ _
          have h4 := Nat.ModEq.add_right (k * req.Limit) h3
          have h5 : c + req.Limit + k * req.Limit = c + (k + 1) * req.Limit := by ring
          rw [h5] at h4
          exact h4
        have h6 : ((c + req.Limit) % 2 ^ 64 + k * req.Limit) % 2 ^ 64 =
            (c + (k + 1) * req.Limit) % 2 ^ 64 := this
        rw [h6]

theorem relayLoop_fetch_send_count {σ ε ρ : Type} (env : Env σ ε ρ)
    (req : StateSyncEventsRequest) :
    ∀ (fuel : Nat) (s : σ) (c : Nat),
      (sentPages (relayLoop env req fuel s c).trace).length ≤
        (fetchParams (relayLoop env req fuel s c).trace).length ∧
      (fetchParams (relayLoop env req fuel s c).trace).length ≤
        (sentPages (relayLoop env req fuel s c).trace).length + 1 := by
  intro fuel
  induction fuel with
  | zero => intro s c; simp [relayLoop_zero, fetchParams, sentPages]
  | succ fuel ih =>
    intro s c
    rcases relayLoop_succ_cases env req fuel s c with
      ⟨err, s1, _, hr⟩ | ⟨res, s1, _, _, hr⟩ | ⟨res, s1, err, s2, _, _, _, hr⟩ |
      ⟨res, s1, s2, _, _, _, hr⟩
    · rw [hr]; simp [fetchParams, sentPages]
    · rw [hr]; simp [fetchParams, sentPages]
    · rw [hr]; simp [fetchParams, sentPages]
    · rw [hr]
      have := ih s2 (addUint64 c req.Limit)
      simp only [fetchParams, sentPages, List.length_cons]
      omega

/-! ## Error propagation -/

theorem relayLoop_fetch_error {σ ε ρ : Type} (env : Env σ ε ρ) (req : StateSyncEventsRequest) :
    ∀ (fuel : Nat) (s : σ) (c : Nat) (i : Nat) (p : Params) (e : ε),
      (relayLoop env req fuel s c).trace[i]? = some (.fetch p (.error e)) →
      (relayLoop env req fuel s c).trace.length = i + 1 ∧
      (relayLoop env req fuel s c).outcome = .returned (some e) ∧
      (∀ a ∈ (relayLoop env req fuel s c).trace.take i, a.error = none) ∧
      sentPages ((relayLoop env req fuel s c).trace.take i) =
        (fetched ((relayLoop env req fuel s c).trace.take i)).map (pageOf env) ∧
      sendAttempts ((relayLoop env req fuel s c).trace.take i) =
        sentPages ((relayLoop env req fuel s c).trace.take i) := by
  intro fuel
  induction fuel with
  | zero =>
    intro s c i p e h
    simp [relayLoop_zero] at h
  | succ fuel ih =>
    intro s c i p e h
    rcases relayLoop_succ_cases env req fuel s c with
      ⟨err, s1, _, hr⟩ | ⟨res, s1, _, _, hr⟩ | ⟨res, s1, err, s2, _, _, _, hr⟩ |
      ⟨res, s1, s2, _, _, _, hr⟩
    · rw [hr] at h ⊢
      cases i with
      | zero =>
        simp at h
        simp [h, sentPages, fetched, sendAttempts]
      | succ i => simp at h
    · rw [hr] at h
      cases i with
      | zero => simp at h
      | succ i => simp at h
    · rw [hr] at h
      rcases i with _ | _ | i <;> simp at h
    · rw [hr] at h ⊢
      rcases i with _ | _ | i
      · simp at h
      · simp at h
      · simp only [List.getElem?_cons_succ] at h
        obtain ⟨h1, h2, h3, h4, h5⟩ := ih s2 _ i p e h
        refine ⟨by simp [h1], h2, ?_, ?_, ?_⟩
        · intro a ha
          simp only [List.take_succ_cons, List.mem_cons] at ha
          rcases ha with rfl | rfl | ha
          · rfl
          · rfl
          · exact h3 a ha
        · simp [sentPages, fetched, h4]
        · simp [sentPages, sendAttempts, h5]

theorem relayLoop_send_error {σ ε ρ : Type} (env : Env σ ε ρ) (req : StateSyncEventsRequest) :
    ∀ (fuel : Nat) (s : σ) (c : Nat) (i : Nat) (m : StateSyncEventsResponse) (e : ε),
      (relayLoop env req fuel s c).trace[i]? = some (.send m (some e)) →
      (relayLoop env req fuel s c).trace.length = i + 1 ∧
      (relayLoop env req fuel s c).outcome = .returned (some e) ∧
      (∀ a ∈ (relayLoop env req fuel s c).trace.take i, a.error = none) := by
  intro fuel
  induction fuel with
  | zero =>
    intro s c i m e h
    simp [relayLoop_zero] at h
  | succ fuel ih =>
    intro s c i m e h
    rcases relayLoop_succ_cases env req fuel s c with
      ⟨err, s1, _, hr⟩ | ⟨res, s1, _, _, hr⟩ | ⟨res, s1, err, s2, _, _, _, hr⟩ |
      ⟨res, s1, s2, _, _, _, hr⟩
    · rw [hr] at h
      cases i with
      | zero => simp at h
      | succ i => simp at h
    · rw [hr] at h
      cases i with
      | zero => simp at h
      | succ i => simp at h
    · rw [hr] at h ⊢
      rcases i with _ | _ | i
      · simp at h
      · simp at h
        simp [h, Action.error]
      · simp at h
    · rw [hr] at h ⊢
      rcases i with _ | _ | i
      · simp at h
      · simp at h
      · simp only [List.getElem?_cons_succ] at h
        obtain ⟨h1, h2, h3⟩ := ih s2 _ i m e h
        refine ⟨by simp [h1], h2, ?_⟩
        intro a ha
        simp only [List.take_succ_cons, List.mem_cons] at ha
        rcases ha with rfl | rfl | ha
        · rfl
        · rfl
        · exact h3 a ha

theorem relayLoop_returned {σ ε ρ : Type} (env : Env σ ε ρ) (req : StateSyncEventsRequest) :
    ∀ (fuel : Nat) (s : σ) (c : Nat),
      ((relayLoop env req fuel s c).outcome = .returned none →
        ∃ p res, (relayLoop env req fuel s c).trace.getLast? = some (.fetch p (.ok res)) ∧
          parseEvents env.Unmarshal env.ParseRFC3339 res.Result = [] ∧
          ∀ a ∈ (relayLoop env req fuel s c).trace, a.error = none) ∧
      (∀ e, (relayLoop env req fuel s c).outcome = .returned (some e) →
        ∃ a, (relayLoop env req fuel s c).trace.getLast? = some a ∧ a.error = some e) := by
  intro fuel
  induction fuel with
  | zero =>
    intro s c
    simp [relayLoop_zero]
  | succ fuel ih =>
    intro s c
    rcases relayLoop_succ_cases env req fuel s c with
      ⟨err, s1, _, hr⟩ | ⟨res, s1, _, hp, hr⟩ | ⟨res, s1, err, s2, _, _, _, hr⟩ |
      ⟨res, s1, s2, _, _, _, hr⟩
    · rw [hr]
      simp [Action.error]
    · rw [hr]
      refine ⟨fun _ => ⟨_, res, rfl, hp, fun a ha => ?_⟩, fun e he => ?_⟩
      · simp only [List.mem_singleton] at ha
        rw [ha]
        rfl
      · simp at he
    · rw [hr]
      simp [Action.error]
    · rw [hr]
      obtain ⟨ih1, ih2⟩ := ih s2 (addUint64 c req.Limit)
      constructor
      · intro h
        obtain ⟨p, r, hl, hpe, hall⟩ := ih1 h
        refine ⟨p, r, ?_, hpe, ?_⟩
        · cases hrest : (relayLoop env req fuel s2 (addUint64 c req.Limit)).trace with
          | nil => rw [hrest] at hl; simp at hl
          | cons x xs =>
            rw [hrest] at hl
            simp only [List.getLast?_cons_cons]
            exact hl
        · intro a ha
          simp only [List.mem_cons] at ha
          rcases ha with rfl | rfl | ha
          · rfl
          · rfl
          · exact hall a ha
      · intro e h
        obtain ⟨a, hl, ha⟩ := ih2 e h
        refine ⟨a, ?_, ha⟩
        cases hrest : (relayLoop env req fuel s2 (addUint64 c req.Limit)).trace with
        | nil => rw [hrest] at hl; simp at hl
        | cons x xs =>
          rw [hrest] at hl
          simp only [List.getLast?_cons_cons]
          exact hl

/-! ## Decoding -/

theorem convertEvents_bad_time (parseTime : String → Option Timestamp) :
    ∀ (events : List Event), (∃ e ∈ events, parseTime e.RecordTime = none) →
      convertEvents parseTime events = none := by
  intro events
  induction events with
  | nil => intro h; simp at h
  | cons x xs ih =>
    intro h
    simp only [List.mem_cons, exists_eq_or_imp] at h
    rcases h with hx | hxs
    · simp [convertEvents, toEventRecord, hx]
    · cases hx : toEventRecord parseTime x with
      | none => simp [convertEvents, hx]
      | some r => simp [convertEvents, hx, ih hxs]

theorem convertEvents_good (parseTime : String → Option Timestamp) :
    ∀ (events : List Event), (∀ e ∈ events, ∃ t, parseTime e.RecordTime = some t) →
      ∃ rs, convertEvents parseTime events = some rs ∧ List.Forall₂ Copied events rs := by
  intro events
  induction events with
  | nil => intro _; exact ⟨[], rfl, List.Forall₂.nil⟩
  | cons x xs ih =>
    intro h
    obtain ⟨t, ht⟩ := h x (List.mem_cons_self x xs)
    obtain ⟨rs, hrs, hall⟩ := ih (fun e he => h e (List.mem_cons_of_mem x he))
    refine ⟨_ :: rs, by simp [convertEvents, toEventRecord, ht, hrs]; rfl, ?_⟩
    exact List.Forall₂.cons ⟨rfl, rfl, rfl, rfl, rfl, rfl⟩ hall

theorem parseEvents_decodeFails {σ ε ρ : Type} (env : Env σ ε ρ) (raw : ρ)
    (h : DecodeFails env raw) : parseEvents env.Unmarshal env.ParseRFC3339 raw = [] := by
  rcases h with h | ⟨events, hu, hbad⟩
  · simp [parseEvents, h]
  · simp [parseEvents, hu, convertEvents_bad_time env.ParseRFC3339 events hbad]

theorem relayLoop_empty_page {σ ε ρ : Type} (env : Env σ ε ρ) (req : StateSyncEventsRequest) :
    ∀ (fuel : Nat) (s : σ) (c : Nat) (i : Nat) (p : Params) (res : ResponseWithHeight ρ),
      (relayLoop env req fuel s c).trace[i]? = some (.fetch p (.ok res)) →
      parseEvents env.Unmarshal env.ParseRFC3339 res.Result = [] →
      (relayLoop env req fuel s c).trace.length = i + 1 ∧
      (relayLoop env req fuel s c).outcome = .returned none ∧
      sendAttempts (relayLoop env req fuel s c).trace =
        sentPages ((relayLoop env req fuel s c).trace.take i) := by
  intro fuel
  induction fuel with
  | zero =>
    intro s c i p res h
    simp [relayLoop_zero] at h
  | succ fuel ih =>
    intro s c i p res h hp
    rcases relayLoop_succ_cases env req fuel s c with
      ⟨err, s1, _, hr⟩ | ⟨res1, s1, _, _, hr⟩ | ⟨res1, s1, err, s2, _, hne, _, hr⟩ |
      ⟨res1, s1, s2, _, hne, _, hr⟩
    · rw [hr] at h
      cases i with
      | zero => simp at h
      | succ i => simp at h
    · rw [hr] at h ⊢
      cases i with
      | zero => simp [sendAttempts, sentPages]
      | succ i => simp at h
    · rw [hr] at h
      rcases i with _ | _ | i
      · simp at h
        rw [h.2] at hne
        exact absurd hp hne
      · simp at h
      · simp at h
    · rw [hr] at h ⊢
      rcases i with _ | _ | i
      · simp at h
        rw [h.2] at hne
        exact absurd hp hne
      · simp at h
      · simp only [List.getElem?_cons_succ] at h
        obtain ⟨h1, h2, h3⟩ := ih s2 _ i p res h hp
        refine ⟨by simp [h1], h2, ?_⟩
        simp [sendAttempts, sentPages, h3]

/-! ## Properties of `StateSyncEvents` -/

/-- C2: for every request with a `uint64` start id, whatever the fetcher and
the transport do, the `k`-th fetch of `StateSyncEvents` carries
`from-id = (fromId + k * limit) mod 2^64`, `to-time = toTime` and
`limit = limit`; a fetch is issued only after the page of every earlier fetch
was sent, so the number of fetches is the number of sent pages or one more. -/
theorem StateSyncEvents_fetch_schedule {σ ε ρ : Type} (env : Env σ ε ρ)
    (req : StateSyncEventsRequest) (s : σ) (fuel : Nat) (hfrom : req.FromID < 2 ^ 64) :
    (∀ (k : Nat) (p : Params),
      (fetchParams (StateSyncEvents env req s fuel).trace)[k]? = some p →
      p = ⟨(req.FromID + k * req.Limit) % 2 ^ 64, req.ToTime, req.Limit⟩) ∧
    (sentPages (StateSyncEvents env req s fuel).trace).length ≤
      (fetchParams (StateSyncEvents env req s fuel).trace).length ∧
    (fetchParams (StateSyncEvents env req s fuel).trace).length ≤
      (sentPages (StateSyncEvents env req s fuel).trace).length + 1 :=
  ⟨relayLoop_fetch_params env req fuel s req.FromID hfrom,
    relayLoop_fetch_send_count env req fuel s req.FromID⟩

theorem StateSyncEvents_fetch_schedule_witness :
    (18446744073709551614 < 2 ^ 64) ∧
    (⟨1, 100, 3⟩ : Params) = ⟨(18446744073709551614 + 1 * 3) % 2 ^ 64, 100, 3⟩ :=
  ⟨by norm_num,
    (StateSyncEvents_fetch_schedule (sampleEnv sampleHigh (fun _ => false) none)
      ⟨18446744073709551614, 100, 3⟩ ⟨0, 0⟩ 5 (by norm_num)).1 1 ⟨1, 100, 3⟩ (by decide)⟩

/-- C5: whatever the fetcher and the transport do, a failed fetch is the last
action of the run, the run returns that same error, every earlier action
succeeded and the pages sent before it are exactly the pages of the earlier
fetches; a failed send is the last action and the run returns that same error;
a run returns `nil` only after a last fetch that succeeded with an empty parsed
list and with no failed action at all; and a returned error is always the error
of the last action. -/
theorem StateSyncEvents_error_propagation {σ ε ρ : Type} (env : Env σ ε ρ)
    (req : StateSyncEventsRequest) (s : σ) (fuel : Nat) :
    (∀ (i : Nat) (p : Params) (e : ε),
      (StateSyncEvents env req s fuel).trace[i]? = some (.fetch p (.error e)) →
      (StateSyncEvents env req s fuel).trace.length = i + 1 ∧
      (StateSyncEvents env req s fuel).outcome = .returned (some e) ∧
      (∀ a ∈ (StateSyncEvents env req s fuel).trace.take i, a.error = none) ∧
      sentPages ((StateSyncEvents env req s fuel).trace.take i) =
        (fetched ((StateSyncEvents env req s fuel).trace.take i)).map (pageOf env) ∧
      sendAttempts ((StateSyncEvents env req s fuel).trace.take i) =
        sentPages ((StateSyncEvents env req s fuel).trace.take i)) ∧
    (∀ (i : Nat) (m : StateSyncEventsResponse) (e : ε),
      (StateSyncEvents env req s fuel).trace[i]? = some (.send m (some e)) →
      (StateSyncEvents env req s fuel).trace.length = i + 1 ∧
      (StateSyncEvents env req s fuel).outcome = .returned (some e) ∧
      (∀ a ∈ (StateSyncEvents env req s fuel).trace.take i, a.error = none)) ∧
    ((StateSyncEvents env req s fuel).outcome = .returned none →
      ∃ p res, (StateSyncEvents env req s fuel).trace.getLast? = some (.fetch p (.ok res)) ∧
        parseEvents env.Unmarshal env.ParseRFC3339 res.Result = [] ∧
        ∀ a ∈ (StateSyncEvents env req s fuel).trace, a.error = none) ∧
    (∀ e, (StateSyncEvents env req s fuel).outcome = .returned (some e) →
      ∃ a, (StateSyncEvents env req s fuel).trace.getLast? = some a ∧ a.error = some e) :=
  ⟨relayLoop_fetch_error env req fuel s req.FromID,
    relayLoop_send_error env req fuel s req.FromID,
    relayLoop_returned env req fuel s req.FromID⟩

theorem StateSyncEvents_error_propagation_witness :
    ((StateSyncEvents (sampleEnv sampleDense (fun k => decide (k = 2)) none)
        ⟨0, 100, 1⟩ ⟨0, 0⟩ 9).trace.length = 4 + 1 ∧
      (StateSyncEvents (sampleEnv sampleDense (fun k => decide (k = 2)) none)
        ⟨0, 100, 1⟩ ⟨0, 0⟩ 9).outcome = .returned (some "upstream unavailable") ∧
      (sentPages ((StateSyncEvents (sampleEnv sampleDense (fun k => decide (k = 2)) none)
        ⟨0, 100, 1⟩ ⟨0, 0⟩ 9).trace.take 4)).length = 2) ∧
    ((StateSyncEvents (sampleEnv sampleDense (fun _ => false) (some 1))
        ⟨0, 100, 1⟩ ⟨0, 0⟩ 9).trace.length = 3 + 1 ∧
      (StateSyncEvents (sampleEnv sampleDense (fun _ => false) (some 1))
        ⟨0, 100, 1⟩ ⟨0, 0⟩ 9).outcome = .returned (some "context canceled")) := by
  have h1 := (StateSyncEvents_error_propagation
    (sampleEnv sampleDense (fun k => decide (k = 2)) none) ⟨0, 100, 1⟩ ⟨0, 0⟩ 9).1
    4 ⟨2, 100, 1⟩ "upstream unavailable" (by rfl)
  have h2 := (StateSyncEvents_error_propagation
    (sampleEnv sampleDense (fun _ => false) (some 1)) ⟨0, 100, 1⟩ ⟨0, 0⟩ 9).2.1
    3 ⟨"7", [sampleRecord 2 2]⟩ "context canceled" (by rfl)
  refine ⟨⟨h1.1, h1.2.1, ?_⟩, h2.1, h2.2.1⟩
  rw [h1.2.2.2.1]
  decide

/-- C6: a payload that does not unmarshal, or one of whose events carries a
`record_time` that is not RFC3339, makes `parseEvents` return no record at all;
in a run of `StateSyncEvents` the fetch that brought such a payload is the last
action, nothing is sent for it, the run returns `nil`, and the pages handed to
the transport are exactly those accepted before it.  Conversely, when the
payload unmarshals to events whose times all parse, `parseEvents` returns one
record per event, in order, with id, contract, data, tx hash, log index and
chain id copied unchanged. -/
theorem parseEvents_decoding_policy {σ ε ρ : Type} (env : Env σ ε ρ)
    (req : StateSyncEventsRequest) (s : σ) (fuel : Nat) :
    (∀ raw, DecodeFails env raw → parseEvents env.Unmarshal env.ParseRFC3339 raw = []) ∧
    (∀ (i : Nat) (p : Params) (res : ResponseWithHeight ρ),
      (StateSyncEvents env req s fuel).trace[i]? = some (.fetch p (.ok res)) →
      DecodeFails env res.Result →
      (StateSyncEvents env req s fuel).trace.length = i + 1 ∧
      (StateSyncEvents env req s fuel).outcome = .returned none ∧
      sendAttempts (StateSyncEvents env req s fuel).trace =
        sentPages ((StateSyncEvents env req s fuel).trace.take i)) ∧
    (∀ raw events, env.Unmarshal raw = some events →
      (∀ e ∈ events, ∃ t, env.ParseRFC3339 e.RecordTime = some t) →
      (parseEvents env.Unmarshal env.ParseRFC3339 raw).length = events.length ∧
      List.Forall₂ Copied events (parseEvents env.Unmarshal env.ParseRFC3339 raw)) := by
  refine ⟨parseEvents_decodeFails env, ?_, ?_⟩
  · intro i p res h hd
    exact relayLoop_empty_page env req fuel s req.FromID i p res h
      (parseEvents_decodeFails env _ hd)
  · intro raw events hu hall
    obtain ⟨rs, hrs, hf⟩ := convertEvents_good env.ParseRFC3339 events hall
    have hp : parseEvents env.Unmarshal env.ParseRFC3339 raw = rs := by
      simp [parseEvents, hu, hrs]
    rw [hp]
    exact ⟨hf.length_eq.symm, hf⟩

theorem parseEvents_decoding_policy_witness :
    (parseEvents (sampleEnv sampleCorrupt (fun _ => false) none).Unmarshal
        (sampleEnv sampleCorrupt (fun _ => false) none).ParseRFC3339
        (sampleCorrupt.map sampleRender) = []) ∧
    ((StateSyncEvents (sampleEnv sampleCorrupt (fun _ => false) none)
        ⟨0, 100, 2⟩ ⟨0, 0⟩ 9).trace.length = 0 + 1 ∧
      (StateSyncEvents (sampleEnv sampleCorrupt (fun _ => false) none)
        ⟨0, 100, 2⟩ ⟨0, 0⟩ 9).outcome = .returned none) ∧
    ((parseEvents (sampleEnv sampleDense (fun _ => false) none).Unmarshal
        (sampleEnv sampleDense (fun _ => false) none).ParseRFC3339
        (sampleDense.map sampleRender)).length = 3) := by
  have hbad : DecodeFails (sampleEnv sampleCorrupt (fun _ => false) none)
      (sampleCorrupt.map sampleRender) :=
    Or.inr ⟨sampleCorrupt.map sampleRender, rfl, sampleRender (sampleRecord 2 9),
      by decide, by decide⟩
  have h := parseEvents_decoding_policy (sampleEnv sampleCorrupt (fun _ => false) none)
    ⟨0, 100, 2⟩ ⟨0, 0⟩ 9
  have h2 := h.2.1 0 ⟨0, 100, 2⟩ ⟨7, sampleCorrupt.map sampleRender⟩ (by rfl) hbad
  have h3 := (parseEvents_decoding_policy (sampleEnv sampleDense (fun _ => false) none)
    ⟨0, 100, 2⟩ ⟨0, 0⟩ 9).2.2 (sampleDense.map sampleRender) (sampleDense.map sampleRender)
    rfl (by
      intro e he
      simp only [sampleDense, List.map_cons, List.map_nil, List.mem_cons, List.mem_singleton,
        List.not_mem_nil, or_false] at he
      rcases he with rfl | rfl | rfl <;> exact ⟨_, rfl⟩)
  exact ⟨h.1 _ hbad, ⟨h2.1, h2.2.1⟩, h3.1⟩

/-! ## A zero limit -/

theorem relayLoop_zero_limit_params {σ ε ρ : Type} (env : Env σ ε ρ)
    (req : StateSyncEventsRequest) (hlim : req.Limit = 0) :
    ∀ (fuel : Nat) (s : σ) (c : Nat), c < 2 ^ 64 →
      ∀ p ∈ fetchParams (relayLoop env req fuel s c).trace, p = ⟨c, req.ToTime, 0⟩ := by
  intro fuel s c hc p hp
  obtain ⟨k, hk⟩ := List.getElem?_of_mem hp
  have h := relayLoop_fetch_params env req fuel s c hc k p hk
  rw [h, hlim]
  simp only [Nat.mul_zero, Nat.add_zero, Params.mk.injEq, and_true]
  exact Nat.mod_eq_of_lt hc

theorem relayLoop_first_fetch {σ ε ρ : Type} (env : Env σ ε ρ)
    (req : StateSyncEventsRequest) (fuel : Nat) (s : σ) (c : Nat) :
    (fetchParams (relayLoop env req (fuel + 1) s c).trace).head? =
      some ⟨c, req.ToTime, req.Limit⟩ := by
  rcases relayLoop_succ_cases env req fuel s c with
    ⟨err, s1, _, hr⟩ | ⟨res, s1, _, _, hr⟩ | ⟨res, s1, err, s2, _, _, _, hr⟩ |
    ⟨res, s1, s2, _, _, _, hr⟩ <;> rw [hr] <;> simp [fetchParams]

theorem relayLoop_zero_limit_runs {σ ε ρ : Type} (env : Env σ ε ρ)
    (req : StateSyncEventsRequest) (hlim : req.Limit = 0) (c : Nat) (hc : c < 2 ^ 64)
    (hfetch : ∀ s, ∃ res s1, env.FetchFromAPI s ⟨c, req.ToTime, 0⟩ = (.ok res, s1) ∧
      parseEvents env.Unmarshal env.ParseRFC3339 res.Result ≠ [])
    (hsend : SendsSucceed env) :
    ∀ (fuel : Nat) (s : σ),
      (relayLoop env req fuel s c).outcome = .running ∧
      (fetchParams (relayLoop env req fuel s c).trace).length = fuel ∧
      (sentPages (relayLoop env req fuel s c).trace).length = fuel := by
  intro fuel
  induction fuel with
  | zero => intro s; simp [relayLoop_zero, fetchParams, sentPages]
  | succ fuel ih =>
    intro s
    obtain ⟨res0, s0, hf0, hne0⟩ := hfetch s
    have hcc : addUint64 c req.Limit = c := by
      unfold addUint64
      rw [hlim, Nat.add_zero]
      exact Nat.mod_eq_of_lt hc
    rcases relayLoop_succ_cases env req fuel s c with
      ⟨err, s1, hf, hr⟩ | ⟨res, s1, hf, hp, hr⟩ | ⟨res, s1, err, s2, hf, _, hs, hr⟩ |
      ⟨res, s1, s2, hf, _, hs, hr⟩
    · rw [hlim, hf0] at hf
      simp at hf
    · rw [hlim, hf0] at hf
      simp only [Prod.mk.injEq, Except.ok.injEq] at hf
      rw [← hf.1] at hp
      exact absurd hp hne0
    · have := hsend s1 (pageOf env res)
      rw [hs] at this
      simp at this
    · rw [hr, hcc]
      obtain ⟨h1, h2, h3⟩ := ih s2
      simp [fetchParams, sentPages, h1, h2, h3]

/-! ## Cancellation -/

theorem relayLoop_cancelled {σ ε ρ : Type} (env : Env σ ε ρ) (cancelled : σ → Bool)
    (hstable : ∀ s p, cancelled s = true → cancelled (env.FetchFromAPI s p).2 = true)
    (hsend : ∀ s m, cancelled s = true → ∃ e, (env.Send s m).1 = some e)
    (req : StateSyncEventsRequest) (s : σ) (fuel : Nat) (c : Nat)
    (hc : cancelled s = true) :
    fetchParams (relayLoop env req (fuel + 1) s c).trace = [⟨c, req.ToTime, req.Limit⟩] ∧
    sentPages (relayLoop env req (fuel + 1) s c).trace = [] ∧
    (relayLoop env req (fuel + 1) s c).outcome ≠ .running := by
  rcases relayLoop_succ_cases env req fuel s c with
    ⟨err, s1, _, hr⟩ | ⟨res, s1, _, _, hr⟩ | ⟨res, s1, err, s2, _, _, _, hr⟩ |
    ⟨res, s1, s2, hf, _, hs, hr⟩
  · rw [hr]; simp [fetchParams, sentPages]
  · rw [hr]; simp [fetchParams, sentPages]
  · rw [hr]; simp [fetchParams, sentPages]
  · have h1 := hstable s ⟨c, req.ToTime, req.Limit⟩ hc
    rw [hf] at h1
    obtain ⟨e, he⟩ := hsend s1 (pageOf env res) h1
    rw [hs] at he
    simp at he

/-- C3 (as stated, refuted): with `limit = 0` the relay validates nothing.
Against an upstream that serves one record per request it fetches and sends
again and again with the unchanged cursor and has not returned after three
iterations; against an upstream that honours `limit = 0` with an empty page it
issues one fetch and returns `nil`, not an error. -/
theorem StateSyncEvents_zero_limit_counterexample :
    fetchParams (StateSyncEvents (lenientEnv sampleDense) ⟨0, 100, 0⟩ ⟨0, 0⟩ 3).trace =
      [⟨0, 100, 0⟩, ⟨0, 100, 0⟩, ⟨0, 100, 0⟩] ∧
    (sentPages (StateSyncEvents (lenientEnv sampleDense) ⟨0, 100, 0⟩ ⟨0, 0⟩ 3).trace).map
      (fun m => m.Result.map (fun r => r.ID)) = [[1], [1], [1]] ∧
    (StateSyncEvents (lenientEnv sampleDense) ⟨0, 100, 0⟩ ⟨0, 0⟩ 3).outcome = .running ∧
    fetchParams (StateSyncEvents (sampleEnv sampleDense (fun _ => false) none)
      ⟨0, 100, 0⟩ ⟨0, 0⟩ 3).trace = [⟨0, 100, 0⟩] ∧
    (StateSyncEvents (sampleEnv sampleDense (fun _ => false) none)
      ⟨0, 100, 0⟩ ⟨0, 0⟩ 3).outcome = .returned none := by
  decide

/-- C3 (amended): `StateSyncEvents` called with `limit = 0` does not check the
limit.  Its first action is the fetch `(fromId, toTime, 0)`, every later fetch
carries the same unchanged cursor, and when the upstream keeps answering that
request with a non-empty page and no send fails the loop never returns: after
any number `n` of iterations it has issued `n` fetches and sent `n` pages and
is still running. -/
theorem StateSyncEvents_zero_limit {σ ε ρ : Type} (env : Env σ ε ρ)
    (req : StateSyncEventsRequest) (s : σ) (hlim : req.Limit = 0)
    (hfrom : req.FromID < 2 ^ 64) :
    (∀ fuel, (fetchParams (StateSyncEvents env req s (fuel + 1)).trace).head? =
      some ⟨req.FromID, req.ToTime, 0⟩) ∧
    (∀ fuel, ∀ p ∈ fetchParams (StateSyncEvents env req s fuel).trace,
      p = ⟨req.FromID, req.ToTime, 0⟩) ∧
    ((∀ s1, ∃ res s2, env.FetchFromAPI s1 ⟨req.FromID, req.ToTime, 0⟩ = (.ok res, s2) ∧
        parseEvents env.Unmarshal env.ParseRFC3339 res.Result ≠ []) →
      SendsSucceed env →
      ∀ fuel, (StateSyncEvents env req s fuel).outcome = .running ∧
        (fetchParams (StateSyncEvents env req s fuel).trace).length = fuel ∧
        (sentPages (StateSyncEvents env req s fuel).trace).length = fuel) := by
  refine ⟨fun fuel => ?_, fun fuel => ?_, fun hfetch hsend fuel => ?_⟩
  · have h := relayLoop_first_fetch env req fuel s req.FromID
    rw [hlim] at h
    exact h
  · exact relayLoop_zero_limit_params env req hlim fuel s req.FromID hfrom
  · exact relayLoop_zero_limit_runs env req hlim req.FromID hfrom hfetch hsend fuel s

theorem StateSyncEvents_zero_limit_witness :
    (0 = 0 ∧ 0 < 2 ^ 64) ∧
    ((StateSyncEvents (lenientEnv sampleDense) ⟨0, 100, 0⟩ ⟨0, 0⟩ 1000).outcome = .running ∧
      (fetchParams (StateSyncEvents (lenientEnv sampleDense) ⟨0, 100, 0⟩ ⟨0, 0⟩ 1000).trace).length
        = 1000 ∧
      (sentPages (StateSyncEvents (lenientEnv sampleDense) ⟨0, 100, 0⟩ ⟨0, 0⟩ 1000).trace).length
        = 1000) :=
  ⟨⟨rfl, by norm_num⟩,
    (StateSyncEvents_zero_limit (lenientEnv sampleDense) ⟨0, 100, 0⟩ ⟨0, 0⟩ rfl
      (by norm_num)).2.2
      (fun s1 => ⟨_, _, rfl, by decide⟩) (fun _ _ => rfl) 1000⟩

/-- C7 (as stated, refuted): with three pages and a stream that is cancelled
once page 2 was sent, the relay still issues the fetch for page 3; only the
send of page 3 fails. -/
theorem StateSyncEvents_cancellation_counterexample :
    fetchParams (StateSyncEvents (sampleEnv sampleDense (fun _ => false) (some 2))
      ⟨0, 100, 1⟩ ⟨0, 0⟩ 9).trace = [⟨0, 100, 1⟩, ⟨1, 100, 1⟩, ⟨2, 100, 1⟩] ∧
    (sentPages (StateSyncEvents (sampleEnv sampleDense (fun _ => false) (some 2))
      ⟨0, 100, 1⟩ ⟨0, 0⟩ 9).trace).map (fun m => m.Result.map (fun r => r.ID)) = [[1], [2]] ∧
    (sendAttempts (StateSyncEvents (sampleEnv sampleDense (fun _ => false) (some 2))
      ⟨0, 100, 1⟩ ⟨0, 0⟩ 9).trace).map (fun m => m.Result.map (fun r => r.ID)) =
        [[1], [2], [3]] ∧
    (StateSyncEvents (sampleEnv sampleDense (fun _ => false) (some 2))
      ⟨0, 100, 1⟩ ⟨0, 0⟩ 9).outcome = .returned (some "context canceled") := by
  decide

/-- C7 (amended): `StateSyncEvents` has no cancellation check of its own; it
learns of a cancellation only from a failing `Send`.  Started between pages in
a world where the stream is already cancelled (every send fails from then on,
and fetching does not undo it), the loop still issues exactly one further
fetch, with the current cursor, sends no page, and returns. -/
theorem StateSyncEvents_cancellation {σ ε ρ : Type} (env : Env σ ε ρ)
    (cancelled : σ → Bool)
    (hstable : ∀ s p, cancelled s = true → cancelled (env.FetchFromAPI s p).2 = true)
    (hsend : ∀ s m, cancelled s = true → ∃ e, (env.Send s m).1 = some e)
    (req : StateSyncEventsRequest) (s : σ) (fuel : Nat) (hc : cancelled s = true) :
    fetchParams (StateSyncEvents env req s (fuel + 1)).trace =
      [⟨req.FromID, req.ToTime, req.Limit⟩] ∧
    sentPages (StateSyncEvents env req s (fuel + 1)).trace = [] ∧
    (StateSyncEvents env req s (fuel + 1)).outcome ≠ .running :=
  relayLoop_cancelled env cancelled hstable hsend req s fuel req.FromID hc

theorem StateSyncEvents_cancellation_witness :
    fetchParams (StateSyncEvents (sampleEnv sampleDense (fun _ => false) (some 2))
      ⟨2, 100, 1⟩ ⟨2, 2⟩ (8 + 1)).trace = [⟨2, 100, 1⟩] ∧
    sentPages (StateSyncEvents (sampleEnv sampleDense (fun _ => false) (some 2))
      ⟨2, 100, 1⟩ ⟨2, 2⟩ (8 + 1)).trace = [] ∧
    (StateSyncEvents (sampleEnv sampleDense (fun _ => false) (some 2))
      ⟨2, 100, 1⟩ ⟨2, 2⟩ (8 + 1)).outcome ≠ .running :=
  StateSyncEvents_cancellation (sampleEnv sampleDense (fun _ => false) (some 2))
    (fun w => decide (2 ≤ w.sends))
    (fun w p h => by simpa [sampleEnv] using h)
    (fun w m h => by
      have h2 : 2 ≤ w.sends := by simpa using h
      exact ⟨"context canceled", by simp [sampleEnv, h2]⟩)
    ⟨2, 100, 1⟩ ⟨2, 2⟩ 8 (by decide)

/-! ## Lists of contiguous numbers and their chunks -/

theorem drop_range'_one (L : Nat) : ∀ (a m : Nat),
    (List.range' a m).drop L = List.range' (a + L) (m - L) := by
  induction L with
  | zero => intro a m; simp
  | succ L ih =>
    intro a m
    cases m with
    | zero => simp
    | succ m =>
      rw [List.range'_succ, List.drop_succ_cons, ih]
      have h1 : a + 1 + L = a + (L + 1) := by omega
      have h2 : m + 1 - (L + 1) = m - L := by omega
      rw [h1, h2]

theorem take_range'_one (L : Nat) : ∀ (a m : Nat),
    (List.range' a m).take L = List.range' a (min L m) := by
  induction L with
  | zero => intro a m; simp
  | succ L ih =>
    intro a m
    cases m with
    | zero => simp
    | succ m =>
      rw [List.range'_succ, List.take_succ_cons, ih]
      have h2 : min (L + 1) (m + 1) = min L m + 1 := by omega
      rw [h2, List.range'_succ]

theorem chunks_flatten {α : Type} (L : Nat) : ∀ (K : Nat) (l : List α), l.length ≤ K * L →
    ((List.range K).map (fun i => (l.drop (i * L)).take L)).flatten = l := by
  intro K
  induction K with
  | zero =>
    intro l h
    simp at h
    simp [h]
  | succ K ih =>
    intro l h
    rw [List.range_succ_eq_map, List.map_cons, List.map_map, List.flatten_cons]
    have h2 : (l.drop L).length ≤ K * L := by
      rw [List.length_drop]
      have : (K + 1) * L = K * L + L := by ring
      omega
    have h3 := ih (l.drop L) h2
    have h4 : ((fun i => List.take L (List.drop (i * L) l)) ∘ Nat.succ) =
        (fun i => List.take L (List.drop (i * L) (List.drop L l))) := by
      funext i
      simp only [Function.comp, List.drop_drop]
      have : (i + 1) * L = L + i * L := by ring
      rw [Nat.succ_eq_add_one, this]
    rw [h4, h3]
    simp

/-! ## The static upstream -/

theorem lt_of_not_mem_take :
    ∀ (F : List EventRecord) (c L : Nat) (r : EventRecord),
      F.Pairwise (fun a b => a.ID < b.ID) → (∀ x ∈ F, c < x.ID) → r ∈ F → r ∉ F.take L →
      c + L < r.ID := by
  intro F
  induction F with
  | nil => intro c L r _ _ hr; simp at hr
  | cons x xs ih =>
    intro c L r hp hall hr hnot
    cases L with
    | zero => simpa using hall r hr
    | succ L =>
      rw [List.take_succ_cons, List.mem_cons, not_or] at hnot
      rw [List.pairwise_cons] at hp
      have hrx : r ∈ xs := by
        rcases List.mem_cons.mp hr with h | h
        · exact absurd h hnot.1
        · exact h
      have h1 := ih x.ID L r hp.2 hp.1 hrx hnot.2
      have h2 := hall x (List.mem_cons_self x xs)
      omega

theorem matching_pairwise (data : List EventRecord) (c T : Nat)
    (h : data.Pairwise (fun a b => a.ID < b.ID)) :
    (matching data c T).Pairwise (fun a b => a.ID < b.ID) :=
  List.Pairwise.sublist (List.filter_sublist data) h

theorem mem_matching (data : List EventRecord) (c T : Nat) (r : EventRecord) :
    r ∈ matching data c T ↔ r ∈ data ∧ c < r.ID ∧ recordTimeLe r T = true := by
  simp [matching, List.mem_filter]

theorem matching_advance (data : List EventRecord) (c c1 T : Nat) (h : c ≤ c1) :
    matching data c1 T = (matching data c T).filter (fun r => decide (c1 < r.ID)) := by
  unfold matching
  rw [List.filter_filter]
  apply List.filter_congr
  intro x _
  by_cases h1 : c1 < x.ID
  · have h2 : c < x.ID := by omega
    simp [h1, h2]
  · simp [h1]

theorem filter_gt_eq_drop :
    ∀ (l : List EventRecord) (c m L : Nat),
      l.map (fun r => r.ID) = List.range' (c + 1) m →
      l.filter (fun r => decide (c + L < r.ID)) = l.drop L := by
  intro l
  induction l with
  | nil => intro c m L _; simp
  | cons x xs ih =>
    intro c m L h
    cases m with
    | zero => simp at h
    | succ m =>
      rw [List.range'_succ, List.map_cons, List.cons.injEq] at h
      cases L with
      | zero =>
        rw [List.drop_zero]
        apply List.filter_eq_self.mpr
        intro a ha
        have hmem : a.ID ∈ List.map (fun r => r.ID) (x :: xs) := List.mem_map_of_mem _ ha
        rw [List.map_cons, h.1, h.2, ← List.range'_succ, List.mem_range'_1] at hmem
        simp only [Nat.add_zero, decide_eq_true_eq]
        omega
      | succ L =>
        have hx : ¬ (c + (L + 1) < x.ID) := by omega
        rw [List.filter_cons_of_neg (by simpa using hx), List.drop_succ_cons]
        have h3 := ih (c + 1) m L h.2
        have h4 : c + 1 + L = c + (L + 1) := by omega
        rw [h4] at h3
        exact h3

theorem fetch_answer {σ ε ρ : Type} (env : Env σ ε ρ) (data : List EventRecord) (T L : Nat)
    (hup : AnswersFrom env data T L) (s : σ) (c : Nat) (r : Except ε (ResponseWithHeight ρ))
    (s1 : σ) (hf : env.FetchFromAPI s ⟨c, T, L⟩ = (r, s1)) :
    ∃ res, r = .ok res ∧
      parseEvents env.Unmarshal env.ParseRFC3339 res.Result = upstreamPage data c T L := by
  obtain ⟨res, s2, h1, h2⟩ := hup s c
  rw [h1] at hf
  simp only [Prod.mk.injEq] at hf
  exact ⟨res, hf.1.symm, h2⟩

/-! ## No record is skipped -/

theorem relayLoop_covers {σ ε ρ : Type} (env : Env σ ε ρ) (data : List EventRecord)
    (req : StateSyncEventsRequest)
    (hsorted : data.Pairwise (fun a b => a.ID < b.ID))
    (hids : ∀ r ∈ data, r.ID < 2 ^ 64)
    (hlimit : 1 ≤ req.Limit)
    (hup : AnswersFrom env data req.ToTime req.Limit) :
    ∀ (fuel : Nat) (s : σ) (c : Nat),
      (relayLoop env req fuel s c).outcome = .returned none →
      ∀ r ∈ data, c < r.ID → recordTimeLe r req.ToTime = true →
        ∃ m ∈ sentPages (relayLoop env req fuel s c).trace, r ∈ m.Result := by
  intro fuel
  induction fuel with
  | zero =>
    intro s c h
    simp [relayLoop_zero] at h
  | succ fuel ih =>
    intro s c hnil r hr hcr htime
    have hrm : r ∈ matching data c req.ToTime := (mem_matching data c req.ToTime r).mpr ⟨hr, hcr, htime⟩
    rcases relayLoop_succ_cases env req fuel s c with
      ⟨err, s1, _, hrun⟩ | ⟨res, s1, hf, hp, hrun⟩ | ⟨res, s1, err, s2, _, _, _, hrun⟩ |
      ⟨res, s1, s2, hf, _, _, hrun⟩
    · rw [hrun] at hnil
      simp at hnil
    · obtain ⟨res1, h1, h2⟩ := fetch_answer env data _ _ hup s c _ _ hf
      simp only [Except.ok.injEq] at h1
      rw [← h1, hp] at h2
      unfold upstreamPage at h2
      rcases List.take_eq_nil_iff.mp h2.symm with h3 | h3
      · omega
      · rw [h3] at hrm
        simp at hrm
    · rw [hrun] at hnil
      simp at hnil
    · obtain ⟨res1, h1, h2⟩ := fetch_answer env data _ _ hup s c _ _ hf
      simp only [Except.ok.injEq] at h1
      rw [← h1] at h2
      rw [hrun] at hnil ⊢
      simp only [sentPages, List.mem_cons]
      by_cases hin : r ∈ upstreamPage data c req.ToTime req.Limit
      · exact ⟨pageOf env res, Or.inl rfl, by simpa [pageOf, h2] using hin⟩
      · have hlt := lt_of_not_mem_take (matching data c req.ToTime) c req.Limit r
          (matching_pairwise data c req.ToTime hsorted)
          (fun x hx => ((mem_matching data c req.ToTime x).mp hx).2.1) hrm hin
        have hr64 := hids r hr
        have hadd : addUint64 c req.Limit = c + req.Limit := by
          unfold addUint64
          exact Nat.mod_eq_of_lt (by omega)
        rw [hadd] at hnil ⊢
        obtain ⟨m, hm, hrm2⟩ := ih s2 (c + req.Limit) hnil r hr hlt htime
        exact ⟨m, Or.inr hm, hrm2⟩

/-! ## Contiguous ids: the pages partition the backlog -/

theorem relayLoop_contiguous {σ ε ρ : Type} (env : Env σ ε ρ) (data : List EventRecord)
    (req : StateSyncEventsRequest) (hlimit : 1 ≤ req.Limit)
    (hup : AnswersFrom env data req.ToTime req.Limit) (hsend : SendsSucceed env) :
    ∀ (K c m : Nat) (s : σ) (fuel : Nat),
      c + K * req.Limit < 2 ^ 64 →
      (matching data c req.ToTime).map (fun r => r.ID) = List.range' (c + 1) m →
      m ≤ K * req.Limit → K * req.Limit < m + req.Limit → K < fuel →
      (relayLoop env req fuel s c).outcome = .returned none ∧
      fetchParams (relayLoop env req fuel s c).trace =
        (List.range (K + 1)).map (fun k => ⟨c + k * req.Limit, req.ToTime, req.Limit⟩) ∧
      (sentPages (relayLoop env req fuel s c).trace).map (fun m => m.Result) =
        (List.range K).map
          (fun i => ((matching data c req.ToTime).drop (i * req.Limit)).take req.Limit) := by
  intro K
  induction K with
  | zero =>
    intro c m s fuel _ hidsc hm _ hfuel
    obtain ⟨fuel, rfl⟩ : ∃ f, fuel = f + 1 := ⟨fuel - 1, by omega⟩
    have hm0 : m = 0 := by omega
    rw [hm0] at hidsc
    have hnil : matching data c req.ToTime = [] := by simpa using hidsc
    rcases relayLoop_succ_cases env req fuel s c with
      ⟨err, s1, hf, hrun⟩ | ⟨res, s1, hf, hp, hrun⟩ | ⟨res, s1, err, s2, hf, hne, _, hrun⟩ |
      ⟨res, s1, s2, hf, hne, _, hrun⟩
    · obtain ⟨res1, h1, _⟩ := fetch_answer env data _ _ hup s c _ _ hf
      simp at h1
    · rw [hrun]
      simp [fetchParams, sentPages, List.range_succ]
    · obtain ⟨res1, h1, h2⟩ := fetch_answer env data _ _ hup s c _ _ hf
      simp only [Except.ok.injEq] at h1
      rw [← h1] at h2
      rw [h2, upstreamPage, hnil] at hne
      simp at hne
    · obtain ⟨res1, h1, h2⟩ := fetch_answer env data _ _ hup s c _ _ hf
      simp only [Except.ok.injEq] at h1
      rw [← h1] at h2
      rw [h2, upstreamPage, hnil] at hne
      simp at hne
  | succ K ih =>
    intro c m s fuel hbound hidsc hm hK hfuel
    obtain ⟨fuel, rfl⟩ : ∃ f, fuel = f + 1 := ⟨fuel - 1, by omega⟩
    have hexp : (K + 1) * req.Limit = K * req.Limit + req.Limit := by ring
    have hmpos : 0 < m := by omega
    have hlen : (matching data c req.ToTime).length = m := by
      have := congrArg List.length hidsc
      simpa using this
    have hpage_ne : upstreamPage data c req.ToTime req.Limit ≠ [] := by
      unfold upstreamPage
      intro h
      rcases List.take_eq_nil_iff.mp h with h3 | h3
      · omega
      · rw [h3] at hlen
        simp at hlen
        omega
    have hadd : addUint64 c req.Limit = c + req.Limit := by
      unfold addUint64
      exact Nat.mod_eq_of_lt (by omega)
    have hnext : matching data (c + req.Limit) req.ToTime =
        (matching data c req.ToTime).drop req.Limit := by
      rw [matching_advance data c (c + req.Limit) req.ToTime (by omega)]
      exact filter_gt_eq_drop _ c m req.Limit hidsc
    have hidsn : (matching data (c + req.Limit) req.ToTime).map (fun r => r.ID) =
        List.range' (c + req.Limit + 1) (m - req.Limit) := by
      rw [hnext, List.map_drop, hidsc, drop_range'_one]
      have : c + 1 + req.Limit = c + req.Limit + 1 := by omega
      rw [this]
    rcases relayLoop_succ_cases env req fuel s c with
      ⟨err, s1, hf, hrun⟩ | ⟨res, s1, hf, hp, hrun⟩ | ⟨res, s1, err, s2, hf, hne, hs, hrun⟩ |
      ⟨res, s1, s2, hf, hne, hs, hrun⟩
    · obtain ⟨res1, h1, _⟩ := fetch_answer env data _ _ hup s c _ _ hf
      simp at h1
    · obtain ⟨res1, h1, h2⟩ := fetch_answer env data _ _ hup s c _ _ hf
      simp only [Except.ok.injEq] at h1
      rw [← h1, hp] at h2
      exact absurd h2.symm hpage_ne
    · have := hsend s1 (pageOf env res)
      rw [hs] at this
      simp at this
    · obtain ⟨res1, h1, h2⟩ := fetch_answer env data _ _ hup s c _ _ hf
      simp only [Except.ok.injEq] at h1
      rw [← h1] at h2
      rw [hrun, hadd]
      obtain ⟨i1, i2, i3⟩ := ih (c + req.Limit) (m - req.Limit) s2 fuel (by omega) hidsn
        (by omega) (by omega) (by omega)
      refine ⟨i1, ?_, ?_⟩
      · simp only [fetchParams, i2]
        rw [List.range_succ_eq_map (K + 1), List.map_cons, List.map_map]
        simp only [Nat.zero_mul, Nat.add_zero, List.cons.injEq, true_and]
        apply List.map_congr_left
        intro k _
        simp only [Function.comp, Nat.succ_eq_add_one, Params.mk.injEq, and_true]
        ring
      · simp only [sentPages, List.map_cons, i3]
        rw [List.range_succ_eq_map K, List.map_cons, List.map_map]
        simp only [Nat.zero_mul, List.drop_zero, List.cons.injEq]
        refine ⟨by simp [pageOf, h2, upstreamPage], ?_⟩
        apply List.map_congr_left
        intro i _
        simp only [Function.comp, Nat.succ_eq_add_one, hnext, List.drop_drop]
        have : (i + 1) * req.Limit = req.Limit + i * req.Limit := by ring
        rw [this]

theorem ceil_div_bounds (n L : Nat) (hL : 1 ≤ L) :
    n ≤ (n + L - 1) / L * L ∧ (n + L - 1) / L * L < n + L := by
  have h1 : L * ((n + L - 1) / L) + (n + L - 1) % L = n + L - 1 := Nat.div_add_mod _ _
  have h2 : (n + L - 1) % L < L := Nat.mod_lt _ (by omega)
  have h3 : (n + L - 1) / L * L = L * ((n + L - 1) / L) := Nat.mul_comm _ _
  rw [h3]
  generalize L * ((n + L - 1) / L) = q at h1
  generalize (n + L - 1) % L = r at h1 h2
  omega

/-! ## The sample upstream answers as the pagination contract says -/

theorem convertEvents_map_render (parseTime : String → Option Timestamp)
    (render : EventRecord → Event) :
    ∀ (l : List EventRecord), (∀ r ∈ l, toEventRecord parseTime (render r) = some r) →
      convertEvents parseTime (l.map render) = some l := by
  intro l
  induction l with
  | nil => intro _; rfl
  | cons x xs ih =>
    intro h
    simp [convertEvents, h x (List.mem_cons_self x xs),
      ih (fun r hr => h r (List.mem_cons_of_mem x hr))]

theorem sampleEnv_answers (data : List EventRecord) (cancelAfter : Option Nat) (T L : Nat)
    (h : ∀ r ∈ data, toEventRecord sampleParseRFC3339 (sampleRender r) = some r) :
    AnswersFrom (sampleEnv data (fun _ => false) cancelAfter) data T L := by
  intro s c
  refine ⟨_, _, rfl, ?_⟩
  have hsub : ∀ r ∈ upstreamPage data c T L,
      toEventRecord sampleParseRFC3339 (sampleRender r) = some r := by
    intro r hr
    exact h r ((mem_matching data c T r).mp (List.mem_of_mem_take hr)).1
  simp [parseEvents, sampleEnv, convertEvents_map_render _ _ _ hsub]

/-! ## Properties of the relay against a static upstream -/

/-- C10: against a static upstream with strictly increasing `uint64` ids that
answers `(cursor, toTime, limit)` with the first `limit` matching records, and
for `limit ≥ 1`, whenever `StateSyncEvents` returns `nil` every record with
`id > fromId` and `recordTime ≤ toTime` is in at least one page that was sent. -/
theorem StateSyncEvents_never_skips {σ ε ρ : Type} (env : Env σ ε ρ)
    (data : List EventRecord) (req : StateSyncEventsRequest) (s : σ) (fuel : Nat)
    (hsorted : data.Pairwise (fun a b => a.ID < b.ID))
    (hids : ∀ r ∈ data, r.ID < 2 ^ 64)
    (hlimit : 1 ≤ req.Limit)
    (hup : AnswersFrom env data req.ToTime req.Limit)
    (hnil : (StateSyncEvents env req s fuel).outcome = .returned none) :
    ∀ r ∈ data, req.FromID < r.ID → recordTimeLe r req.ToTime = true →
      ∃ m ∈ sentPages (StateSyncEvents env req s fuel).trace, r ∈ m.Result :=
  relayLoop_covers env data req hsorted hids hlimit hup fuel s req.FromID hnil

theorem StateSyncEvents_never_skips_witness :
    (sampleSparse.Pairwise (fun a b => a.ID < b.ID) ∧
      (∀ r ∈ sampleSparse, r.ID < 2 ^ 64) ∧ 1 ≤ 1 ∧
      (StateSyncEvents (sampleEnv sampleSparse (fun _ => false) none)
        ⟨0, 100, 1⟩ ⟨0, 0⟩ 9).outcome = .returned none) ∧
    ∃ m ∈ sentPages (StateSyncEvents (sampleEnv sampleSparse (fun _ => false) none)
        ⟨0, 100, 1⟩ ⟨0, 0⟩ 9).trace, sampleRecord 3 3 ∈ m.Result :=
  ⟨⟨by decide, by decide, by decide, by decide⟩,
    StateSyncEvents_never_skips (sampleEnv sampleSparse (fun _ => false) none) sampleSparse
      ⟨0, 100, 1⟩ ⟨0, 0⟩ 9 (by decide) (by decide) (by decide)
      (sampleEnv_answers sampleSparse none 100 1 (by decide)) (by decide)
      (sampleRecord 3 3) (by decide) (by decide) (by decide)⟩

/-- C1 (as stated, refuted): the upstream holds the ids 1 and 3, strictly
increasing, and answers every request with the first matching record; the run
from `fromId = 0` with `limit = 1` returns `nil` after sending the pages
`[1]`, `[3]`, `[3]`, so record 3 is sent twice and the concatenation is not the
list of matching records. -/
theorem StateSyncEvents_sparse_counterexample :
    sampleSparse.Pairwise (fun a b => a.ID < b.ID) ∧
    AnswersFrom (sampleEnv sampleSparse (fun _ => false) none) sampleSparse 100 1 ∧
    SendsSucceed (sampleEnv sampleSparse (fun _ => false) none) ∧
    (StateSyncEvents (sampleEnv sampleSparse (fun _ => false) none)
      ⟨0, 100, 1⟩ ⟨0, 0⟩ 9).outcome = .returned none ∧
    (((sentPages (StateSyncEvents (sampleEnv sampleSparse (fun _ => false) none)
      ⟨0, 100, 1⟩ ⟨0, 0⟩ 9).trace).map (fun m => m.Result)).flatten).map (fun r => r.ID) =
        [1, 3, 3] ∧
    (matching sampleSparse 0 100).map (fun r => r.ID) = [1, 3] ∧
    ((sentPages (StateSyncEvents (sampleEnv sampleSparse (fun _ => false) none)
      ⟨0, 100, 1⟩ ⟨0, 0⟩ 9).trace).map (fun m => m.Result)).flatten ≠
        matching sampleSparse 0 100 :=
  ⟨by decide, sampleEnv_answers sampleSparse none 100 1 (by decide), fun _ _ => rfl,
    by decide, by decide, by decide, by decide⟩

/-- C1 (amended): when the records with `id > fromId` and `recordTime ≤ toTime`
carry the contiguous ids `fromId+1 .. fromId+n` (with `fromId + n + limit ≤ 2^64`),
`limit ≥ 1`, the fetcher answers `(cursor, toTime, limit)` with the first `limit`
matching records and no send fails, then `StateSyncEvents` returns `nil` and the
concatenation of the pages it sent is exactly the list of those records, in
order: none missing, none twice. -/
theorem StateSyncEvents_contiguous_exact {σ ε ρ : Type} (env : Env σ ε ρ)
    (data : List EventRecord) (req : StateSyncEventsRequest) (n : Nat) (s : σ) (fuel : Nat)
    (hlimit : 1 ≤ req.Limit)
    (hids : (matching data req.FromID req.ToTime).map (fun r => r.ID) =
      List.range' (req.FromID + 1) n)
    (hbound : req.FromID + n + req.Limit ≤ 2 ^ 64)
    (hup : AnswersFrom env data req.ToTime req.Limit) (hsend : SendsSucceed env)
    (hfuel : (n + req.Limit - 1) / req.Limit < fuel) :
    (StateSyncEvents env req s fuel).outcome = .returned none ∧
    ((sentPages (StateSyncEvents env req s fuel).trace).map (fun m => m.Result)).flatten =
      matching data req.FromID req.ToTime := by
  obtain ⟨hK1, hK2⟩ := ceil_div_bounds n req.Limit hlimit
  obtain ⟨h1, _, h3⟩ := relayLoop_contiguous env data req hlimit hup hsend
    ((n + req.Limit - 1) / req.Limit) req.FromID n s fuel (by omega) hids hK1 hK2 hfuel
  refine ⟨h1, ?_⟩
  unfold StateSyncEvents
  rw [h3]
  apply chunks_flatten
  have hlen : (matching data req.FromID req.ToTime).length = n := by
    have := congrArg List.length hids
    simpa using this
  rw [hlen]
  exact hK1

theorem StateSyncEvents_contiguous_exact_witness :
    (1 ≤ 1 ∧ (matching sampleDense 1 100).map (fun r => r.ID) = List.range' (1 + 1) 2 ∧
      1 + 2 + 1 ≤ 2 ^ 64) ∧
    ((StateSyncEvents (sampleEnv sampleDense (fun _ => false) none)
        ⟨1, 100, 1⟩ ⟨0, 0⟩ 9).outcome = .returned none ∧
      ((sentPages (StateSyncEvents (sampleEnv sampleDense (fun _ => false) none)
        ⟨1, 100, 1⟩ ⟨0, 0⟩ 9).trace).map (fun m => m.Result)).flatten =
          matching sampleDense 1 100) :=
  ⟨⟨by decide, by decide, by norm_num⟩,
    StateSyncEvents_contiguous_exact (sampleEnv sampleDense (fun _ => false) none) sampleDense
      ⟨1, 100, 1⟩ 2 ⟨0, 0⟩ 9 (by decide) (by decide) (by norm_num)
      (sampleEnv_answers sampleDense none 100 1 (by decide)) (fun _ _ => rfl) (by decide)⟩

theorem sampleBacklog_ids (n : Nat) :
    (sampleBacklog n).map (fun r => r.ID) = List.range' 1 n := by
  unfold sampleBacklog
  rw [List.map_map]
  have h : ((fun r : EventRecord => r.ID) ∘ fun i => sampleRecord i 1) = id := by
    funext i
    rfl
  rw [h, List.map_id]

theorem sampleBacklog_parses (n : Nat) :
    ∀ r ∈ sampleBacklog n, toEventRecord sampleParseRFC3339 (sampleRender r) = some r := by
  intro r hr
  simp only [sampleBacklog, List.mem_map] at hr
  obtain ⟨i, _, rfl⟩ := hr
  rfl

/-- C4: against an upstream holding exactly the records with ids `1..n`, all
with `recordTime ≤ toTime`, that answers `(cursor, toTime, L)` with the first
`L` matching records, for `L ≥ 1`, `n + L < 2^64` and no failing send,
`StateSyncEvents(fromId = 0, toTime, L)` returns `nil`, sends exactly
`⌈n/L⌉` pages, page `i` (counted from 0) holding the ids
`i*L+1 .. min((i+1)*L, n)`, and issues exactly `⌈n/L⌉ + 1` fetches, with the
cursors `0, L, 2L, ...`.  For `n = 250`, `L = 100` the page sizes are
100, 100, 50; for `n = 0` no page is sent and one fetch is issued. -/
theorem StateSyncEvents_dense_backlog {σ ε ρ : Type} (env : Env σ ε ρ)
    (data : List EventRecord) (toTime L n : Nat) (s : σ) (fuel : Nat)
    (hL : 1 ≤ L) (hn : n + L < 2 ^ 64)
    (hids : data.map (fun r => r.ID) = List.range' 1 n)
    (htime : ∀ r ∈ data, recordTimeLe r toTime = true)
    (hup : AnswersFrom env data toTime L) (hsend : SendsSucceed env)
    (hfuel : (n + L - 1) / L < fuel) :
    (StateSyncEvents env ⟨0, toTime, L⟩ s fuel).outcome = .returned none ∧
    (sentPages (StateSyncEvents env ⟨0, toTime, L⟩ s fuel).trace).map
        (fun m => m.Result.map (fun r => r.ID)) =
      (List.range ((n + L - 1) / L)).map
        (fun i => List.range' (i * L + 1) (min L (n - i * L))) ∧
    (sentPages (StateSyncEvents env ⟨0, toTime, L⟩ s fuel).trace).length = (n + L - 1) / L ∧
    fetchParams (StateSyncEvents env ⟨0, toTime, L⟩ s fuel).trace =
      (List.range ((n + L - 1) / L + 1)).map (fun k => ⟨k * L, toTime, L⟩) ∧
    (fetchParams (StateSyncEvents env ⟨0, toTime, L⟩ s fuel).trace).length =
      (n + L - 1) / L + 1 ∧
    (n = 250 → L = 100 →
      (sentPages (StateSyncEvents env ⟨0, toTime, L⟩ s fuel).trace).map
        (fun m => m.Result.length) = [100, 100, 50]) ∧
    (n = 0 →
      sentPages (StateSyncEvents env ⟨0, toTime, L⟩ s fuel).trace = [] ∧
      (fetchParams (StateSyncEvents env ⟨0, toTime, L⟩ s fuel).trace).length = 1) := by
  obtain ⟨hK1, hK2⟩ := ceil_div_bounds n L hL
  have hall : matching data 0 toTime = data := by
    unfold matching
    apply List.filter_eq_self.mpr
    intro r hr
    have hmem : r.ID ∈ data.map (fun r => r.ID) := List.mem_map_of_mem _ hr
    rw [hids, List.mem_range'_1] at hmem
    simp only [Bool.and_eq_true, decide_eq_true_eq]
    exact ⟨by omega, htime r hr⟩
  have hids0 : (matching data 0 toTime).map (fun r => r.ID) = List.range' (0 + 1) n := by
    rw [hall, hids]
  obtain ⟨h1, h2, h3⟩ := relayLoop_contiguous env data ⟨0, toTime, L⟩ hL hup hsend
    ((n + L - 1) / L) 0 n s fuel (by simpa using (by omega : (n + L - 1) / L * L < 2 ^ 64))
    hids0 hK1 hK2 hfuel
  simp only [hall, Nat.zero_add] at h2 h3
  have hpages : (sentPages (StateSyncEvents env ⟨0, toTime, L⟩ s fuel).trace).map
      (fun m => m.Result.map (fun r => r.ID)) =
      (List.range ((n + L - 1) / L)).map
        (fun i => List.range' (i * L + 1) (min L (n - i * L))) := by
    have h4 := congrArg (List.map (List.map (fun r : EventRecord => r.ID))) h3
    simp only [List.map_map] at h4
    unfold StateSyncEvents
    refine Eq.trans ?_ (Eq.trans h4 ?_)
    · rfl
    · apply List.map_congr_left
      intro i _
      simp only [Function.comp, List.map_take, List.map_drop, hids, drop_range'_one,
        take_range'_one]
      rw [Nat.add_comm 1 (i * L)]
  have hlen : (sentPages (StateSyncEvents env ⟨0, toTime, L⟩ s fuel).trace).length =
      (n + L - 1) / L := by
    have := congrArg List.length hpages
    simpa using this
  have hsizes : (sentPages (StateSyncEvents env ⟨0, toTime, L⟩ s fuel).trace).map
      (fun m => m.Result.length) =
      (List.range ((n + L - 1) / L)).map (fun i => min L (n - i * L)) := by
    have h5 := congrArg (List.map List.length) hpages
    rw [List.map_map, List.map_map] at h5
    refine Eq.trans ?_ (Eq.trans h5 ?_)
    · apply List.map_congr_left
      intro m _
      simp
    · apply List.map_congr_left
      intro i _
      simp
  have hfetch : fetchParams (StateSyncEvents env ⟨0, toTime, L⟩ s fuel).trace =
      (List.range ((n + L - 1) / L + 1)).map (fun k => ⟨k * L, toTime, L⟩) := h2
  refine ⟨h1, hpages, hlen, hfetch, by rw [hfetch]; simp, ?_, ?_⟩
  · intro hn250 hL100
    rw [hsizes]
    subst hn250
    subst hL100
    decide
  · intro hn0
    subst hn0
    have hzero : (0 + L - 1) / L = 0 := by
      apply Nat.div_eq_of_lt
      omega
    rw [hzero] at hlen
    refine ⟨List.length_eq_zero.mp hlen, ?_⟩
    rw [hfetch, hzero]
    simp

theorem StateSyncEvents_dense_backlog_witness :
    (1 ≤ 100 ∧ 250 + 100 < 2 ^ 64 ∧
      (sampleBacklog 250).map (fun r => r.ID) = List.range' 1 250 ∧
      (250 + 100 - 1) / 100 < 4) ∧
    ((StateSyncEvents (sampleEnv (sampleBacklog 250) (fun _ => false) none)
        ⟨0, 100, 100⟩ ⟨0, 0⟩ 4).outcome = .returned none ∧
      (sentPages (StateSyncEvents (sampleEnv (sampleBacklog 250) (fun _ => false) none)
        ⟨0, 100, 100⟩ ⟨0, 0⟩ 4).trace).map (fun m => m.Result.length) = [100, 100, 50] ∧
      (fetchParams (StateSyncEvents (sampleEnv (sampleBacklog 250) (fun _ => false) none)
        ⟨0, 100, 100⟩ ⟨0, 0⟩ 4).trace).length = (250 + 100 - 1) / 100 + 1) := by
  have h := StateSyncEvents_dense_backlog (sampleEnv (sampleBacklog 250) (fun _ => false) none)
    (sampleBacklog 250) 100 100 250 ⟨0, 0⟩ 4 (by norm_num) (by norm_num)
    (sampleBacklog_ids 250)
    (by
      intro r hr
      simp only [sampleBacklog, List.mem_map] at hr
      obtain ⟨i, _, rfl⟩ := hr
      rfl)
    (sampleEnv_answers (sampleBacklog 250) none 100 100 (sampleBacklog_parses 250))
    (fun _ _ => rfl) (by norm_num)
  exact ⟨⟨by norm_num, by norm_num, sampleBacklog_ids 250, by norm_num⟩,
    h.1, h.2.2.2.2.2.1 rfl rfl, h.2.2.2.2.1⟩

end gRPC

namespace rest

/-! ## Properties of the REST handlers -/

/-- C8: the handlers of `/checkpoint/buffer` and `/checkpoint/count` answer a
failed store query with 500 and an empty value with 204, returning normally
with an empty body; the handler of `/checkpoint/last-no-ack` answers a failed
store query with 400 instead of 500, and on an empty value it sets 204 and then
ends in a runtime panic (it evaluates `err.Error()` on a `nil` error). -/
theorem noackHandlerFn_diverges {χ : Type} (c : Ctx χ) (msg : String) :
    (checkpointBufferHandlerFn { c with QueryStore := fun _ => .error msg }).w.status =
      some 500 ∧
    checkpointBufferHandlerFn { c with QueryStore := fun _ => .ok [] } =
      ⟨⟨some 204, none, ""⟩, [.BufferCheckpointKey], [], false⟩ ∧
    (checkpointCountHandlerFn { c with QueryStore := fun _ => .error msg }).w.status =
      some 500 ∧
    checkpointCountHandlerFn { c with QueryStore := fun _ => .ok [] } =
      ⟨⟨some 204, none, ""⟩, [.ACKCountKey], [], false⟩ ∧
    (noackHandlerFn { c with QueryStore := fun _ => .error msg }).w.status = some 400 ∧
    noackHandlerFn { c with QueryStore := fun _ => .ok [] } =
      ⟨⟨some 204, none, ""⟩, [.CheckpointNoACKCacheKey], [], true⟩ := by
  refine ⟨?_, rfl, ?_, rfl, ?_, rfl⟩ <;>
    simp [checkpointBufferHandlerFn, checkpointCountHandlerFn, noackHandlerFn,
      WriteErrorResponse, ResponseWriter.Write, ResponseWriter.WriteHeader,
      ResponseWriter.fresh]

/-- C9: the handler of `/checkpoint/{start}/{end}` answers a `start` or an
`end` that does not parse with 400 and calls neither the store nor
`checkpoint.GetHeaders`; the handler of `/checkpoint/headers/{headerBlockIndex}`
drops the error of `strconv.ParseUint` and queries the store with the number
that call returned, so the malformed index `abc` is served like index 0 (here
with 200 and the stored header) and never answered with 400. -/
theorem checkpointHeaderHandlerFn_ignores_parse_error {χ : Type} (c : Ctx χ)
    (headerBlockIndex startVar endVar msg : String) :
    (checkpointHeaderHandlerFn c headerBlockIndex).queries =
      [.HeaderKey (c.ParseUint headerBlockIndex).1] ∧
    decimalParseUint "abc" = (0, some "invalid syntax") ∧
    checkpointHeaderHandlerFn (sampleCtx sampleStore) "abc" =
      ⟨⟨some 200, some "application/json", "42"⟩, [.HeaderKey 0], [], false⟩ ∧
    checkpointHandlerFn { c with Atoi := fun _ => .error msg } startVar endVar =
      ⟨⟨some 400, none, msg⟩, [], [], false⟩ ∧
    checkpointHandlerFn (sampleCtx sampleStore) "abc" "5" =
      ⟨⟨some 400, none, "invalid syntax"⟩, [], [], false⟩ ∧
    checkpointHandlerFn (sampleCtx sampleStore) "5" "1x" =
      ⟨⟨some 400, none, "invalid syntax"⟩, [], [], false⟩ ∧
    (checkpointHandlerFn (sampleCtx sampleStore) "5" "9").headerCalls = [(5, 9)] := by
  refine ⟨?_, by decide, by decide, ?_, by decide, by decide, by decide⟩
  · unfold checkpointHeaderHandlerFn
    simp only
    split
    · rfl
    · split
      · rfl
      · split
        · rfl
        · split <;> rfl
  · simp [checkpointHandlerFn, ResponseWriter.Write, ResponseWriter.WriteHeader,
      ResponseWriter.fresh]

end rest
